import Mathlib

/-!
Verification of the transit-time ingestion / reconciliation / persistence
pipeline (achien/transit-time), shallowly embedded in Lean 4.

Conventions used throughout this development:

* Python `datetime` values are modelled as `Nat` instants (the code only
  compares and copies them); `date` values are modelled by their proleptic
  Gregorian ordinal (the value of `date.toordinal()` in Python), so
  `weekday()` becomes `(ordinal + 6) % 7` (ordinal 1 is 0001-01-01, a
  Monday, whose weekday() is 0).
* Python dictionaries are modelled as insertion-ordered association lists
  with unique keys (`PyDict`); `dict[k] = v` is `PyDict.assign`, which
  updates in place when the key is present and appends otherwise, exactly
  like CPython.
* Database tables are modelled as lists of typed row records, and the
  conditional upsert of `realtime_stop_times` as a function on a keyed
  store `Key -> Option Row`.
* `async` functions have no internal concurrency effects that matter to the
  claims (asyncio.gather preserves the association between inputs and
  results), so they are embedded as pure functions.

The file is organized with all definitions first and all theorems after
them.
-/

/-- Python datetime, modelled as an instant (e.g. microseconds since an
epoch); the pipeline only ever compares, stores and copies these values. -/
abbrev PyDateTime := Nat

/-- Python date, modelled by its proleptic Gregorian ordinal, the value of
`date.toordinal()`. -/
abbrev PyDate := Nat

/-- Python `date.weekday()`: Monday is 0 and Sunday is 6.  Ordinal 1 is
0001-01-01, which is a Monday. -/
def pyWeekday (d : PyDate) : Nat := (d + 6) % 7

/-- Python `str(date)`; the writer only uses it to build a dedup key, so
only injectivity matters and we render the ordinal in decimal. -/
def pyDateStr (d : PyDate) : String := toString d

namespace PyDict

/-- Python dict as an insertion-ordered association list; the dict invariant
(keys pairwise distinct) is carried as a hypothesis where needed. -/
def lookup {K V : Type} [DecidableEq K] (m : List (K × V)) (k : K) : Option V :=
  (m.find? (fun kv => kv.1 = k)).map (·.2)

/-- Python `m[k] = v`: update in place if the key is present (keeping its
position), append otherwise. -/
def assign {K V : Type} [DecidableEq K] (m : List (K × V)) (k : K) (v : V) :
    List (K × V) :=
  match m with
  | [] => [(k, v)]
  | kv :: rest =>
    if kv.1 = k then (k, v) :: rest else kv :: assign rest k v

/-- Python `dict(pairs)`: fold assignment over the pair list; the last value
for a duplicated key wins, and keys keep first-occurrence order. -/
def ofList {K V : Type} [DecidableEq K] (l : List (K × V)) : List (K × V) :=
  l.foldl (fun m kv => assign m kv.1 kv.2) []

end PyDict

namespace Gtfs

/-- scraper/gtfs/gtfs.py: `TransitSystem`; the enum has a single member. -/
inductive TransitSystem where
  | NYC_MTA
  deriving DecidableEq, Repr

/-- Python `TransitSystem.value`. -/
def TransitSystem.value : TransitSystem → String
  | .NYC_MTA => "nyc_mta"

/-- scraper/gtfs/gtfs.py: `TripDescriptor` named tuple. -/
structure TripDescriptor where
  trip_id : String
  route_id : Option String
  start_date : PyDate
  deriving DecidableEq, Repr

/-- scraper/gtfs/gtfs.py: `StopTimeUpdate` named tuple. -/
structure StopTimeUpdate where
  stop_id : String
  arrival : Option PyDateTime
  departure : Option PyDateTime
  deriving DecidableEq, Repr

/-- scraper/gtfs/gtfs.py: `TripUpdate` named tuple. -/
structure TripUpdate where
  trip : TripDescriptor
  stop_time_updates : List StopTimeUpdate
  timestamp : Option PyDateTime
  deriving DecidableEq, Repr

/-- scraper/gtfs/gtfs.py: `VehicleStopStatus`. -/
inductive VehicleStopStatus where
  | INCOMING_AT
  | STOPPED_AT
  | IN_TRANSIT_TO
  deriving DecidableEq, Repr

/-- scraper/gtfs/gtfs.py: `VehiclePosition` named tuple. -/
structure VehiclePosition where
  trip : TripDescriptor
  current_stop_sequence : Option Nat
  stop_id : Option String
  current_status : VehicleStopStatus
  timestamp : Option PyDateTime
  deriving DecidableEq, Repr

/-- scraper/gtfs/gtfs.py: `FeedMessage`.  `trip_replacements` is a Python
dict from route_id to an end time, modelled as an insertion-ordered
association list. -/
structure FeedMessage where
  system : TransitSystem
  feed_id : String
  timestamp : PyDateTime
  trip_replacements : List (String × PyDateTime)
  trip_updates : List TripUpdate
  vehicle_positions : List VehiclePosition
  deriving DecidableEq, Repr

/-- scraper/gtfs/gtfs.py: `FeedMessage.is_trip_replaced`.  The Python
argument is typed `str` but the callers pass `trip.route_id`, an optional
value; `None not in dict` is False, matching the `Option.elim`. -/
def FeedMessage.is_trip_replaced (m : FeedMessage) (route_id : Option String) :
    Bool :=
  match route_id.bind (fun r => PyDict.lookup m.trip_replacements r) with
  | none => false
  | some end_time => m.timestamp ≤ end_time

end Gtfs

/-- c.py: `afilter(fun, l)` — evaluates the predicate on every element (in
parallel via asyncio.gather, which pairs result i with element i) and keeps
the elements whose predicate returned a truthy value, in order. -/
def afilter {α : Type} (p : α → Bool) (l : List α) : List α :=
  (l.zip (l.map p)).filterMap (fun xk => if xk.2 then some xk.1 else none)

namespace MTARealtimeParser

open Gtfs

/-- scraper/mta_realtime_parser.py: `_is_valid_trip_descriptor` — a trip
descriptor without a route_id is invalid (a warning is logged). -/
def is_valid_trip_descriptor (trip : TripDescriptor) : Bool :=
  trip.route_id.isSome

/-- scraper/mta_realtime_parser.py: the inner `is_valid_stop_time_update`
of `_fix_trip_update`.  `stop_exists` is the answer of `get_stop_exists`,
the pre-check against the static `stops` table. -/
def is_valid_stop_time_update (stop_exists : String → Bool)
    (stu : StopTimeUpdate) : Bool :=
  if ¬ stop_exists stu.stop_id then false
  else if stu.arrival = none ∧ stu.departure = none then false
  else true

/-- scraper/mta_realtime_parser.py: `_fix_trip_update` — drop the whole
update when its descriptor is invalid, otherwise keep it with only the
valid stop time updates (via `c.afilter`). -/
def fix_trip_update (stop_exists : String → Bool) (update : TripUpdate) :
    Option TripUpdate :=
  if ¬ is_valid_trip_descriptor update.trip then none
  else some { update with
    stop_time_updates :=
      afilter (is_valid_stop_time_update stop_exists) update.stop_time_updates }

/-- scraper/mta_realtime_parser.py: `_fix_trip_updates` — gather the fixed
updates (gather pairs result i with update i) and keep the non-None ones in
order, i.e. filterMap the fixer over the update list. -/
def fix_trip_updates (stop_exists : String → Bool)
    (updates : List TripUpdate) : List TripUpdate :=
  updates.filterMap (fix_trip_update stop_exists)

/-- One guarded backfill of `_fix_trip_replacements`: when the rule fires
(`cond`) and the derived route has no entry yet, assign it; otherwise leave
the map alone. -/
def backfill_entry (acc : List (String × PyDateTime)) (cond : Bool)
    (k : String) (t : PyDateTime) : List (String × PyDateTime) :=
  if cond then
    if (PyDict.lookup acc k).isSome then acc else PyDict.assign acc k t
  else acc

/-- One iteration of the `_fix_trip_replacements` loop body, for the item
(route_id, end_time), updating the accumulating `replacements` copy: the
"S"-in-feed-1 rule backfills "GS", the "6" rule backfills "6X" and the "7"
rule backfills "7X". -/
def repl_step (feed_id : String) (acc : List (String × PyDateTime))
    (item : String × PyDateTime) : List (String × PyDateTime) :=
  let acc := backfill_entry acc (feed_id = "1" ∧ item.1 = "S") "GS" item.2
  let acc := backfill_entry acc (item.1 = "6") "6X" item.2
  backfill_entry acc (item.1 = "7") "7X" item.2

/-- scraper/mta_realtime_parser.py: `_fix_trip_replacements` — iterate over
the items of the original replacement map while assigning the derived
entries into a copy, then install the copy on the message. -/
def fix_trip_replacements (m : FeedMessage) : FeedMessage :=
  { m with trip_replacements :=
      m.trip_replacements.foldl (repl_step m.feed_id) m.trip_replacements }

/-- scraper/mta_realtime_parser.py: `fix_feed_mesesage` (sic) — fix the
replacement map, then the trip updates. -/
def fix_feed_mesesage (stop_exists : String → Bool) (m : FeedMessage) :
    FeedMessage :=
  let m := fix_trip_replacements m
  { m with trip_updates := fix_trip_updates stop_exists m.trip_updates }

end MTARealtimeParser

/-- One row of the static `trips` table (db.py); the pipeline reads only
these columns (the remaining columns of the table are nullable metadata the
code never touches). -/
structure TripRow where
  system : String
  trip_id : String
  route_id : String
  service_id : String
  deriving DecidableEq, Repr

namespace RealtimeWriter

/-- One row of the `realtime_stop_times` table (db.py), as built by
`RealtimeWriter._write_trip_update`. -/
structure RTRow where
  system : String
  route_id : String
  stop_id : String
  start_date : PyDate
  trip_id : String
  timestamp : Option PyDateTime
  arrival : Option PyDateTime
  departure : Option PyDateTime
  update_time : PyDateTime
  deriving DecidableEq, Repr

/-- The conflict index of the upsert in `_write_trip_update`:
(system, route_id, stop_id, start_date, trip_id). -/
def RTRow.key (r : RTRow) : String × String × String × PyDate × String :=
  (r.system, r.route_id, r.stop_id, r.start_date, r.trip_id)

/-- The `realtime_stop_times` store, keyed by the unique conflict index. -/
def RTStore := String × String × String × PyDate × String → Option RTRow

/-- One row of the conditional upsert issued by `_write_trip_update`:
INSERT .. ON CONFLICT (system, route_id, stop_id, start_date, trip_id)
DO UPDATE SET timestamp/arrival/departure/update_time = excluded..
WHERE stored.update_time <= excluded.update_time.  The SET list covers every
non-key column, so a firing update replaces the stored row with the incoming
one. -/
def upsertRow (store : RTStore) (r : RTRow) : RTStore :=
  fun k =>
    if k = r.key then
      match store k with
      | none => some r
      | some old => if old.update_time ≤ r.update_time then some r else some old
    else store k

/-- A multi-row statement upserts its value list in order. -/
def upsertRows (store : RTStore) (rows : List RTRow) : RTStore :=
  rows.foldl upsertRow store

/-- scraper/realtime_writer.py: `_is_valid_trip_descriptor` (a duplicate of
the parser's). -/
def is_valid_trip_descriptor (trip : Gtfs.TripDescriptor) : Bool :=
  trip.route_id.isSome

/-- values["trip_id"] in `get_insert_values`: the scheduled trip row's id
when descriptor resolution succeeded, else the descriptor's raw trip id. -/
def trip_id_of (trip : Option TripRow) (update : Gtfs.TripUpdate) : String :=
  match trip with
  | some t => t.trip_id
  | none => update.trip.trip_id

/-- The dedup key of `get_insert_values`:
`"||".join([system, route_id, stop_id, str(start_date)])` — note it does
NOT include the trip id. -/
def insert_key (sys route stop : String) (d : PyDate) : String :=
  sys ++ "||" ++ route ++ "||" ++ stop ++ "||" ++ pyDateStr d

/-- scraper/realtime_writer.py: the inner `get_insert_values` of
`_write_trip_update`.  On this code path the descriptor's route_id is
present (the caller returned early otherwise), so the optional value is
unwrapped with an unreachable "" default; in Python a None here would make
the join raise. -/
def get_insert_values (sys : Gtfs.TransitSystem) (update : Gtfs.TripUpdate)
    (message : Gtfs.FeedMessage) (trip : Option TripRow)
    (stop_exists : String → Bool) (stu : Gtfs.StopTimeUpdate) :
    Option (String × RTRow) :=
  if ¬ stop_exists stu.stop_id then none
  else if stu.arrival = none ∧ stu.departure = none then none
  else
    some
      (insert_key sys.value (update.trip.route_id.getD "") stu.stop_id
        update.trip.start_date,
      { system := sys.value
        route_id := update.trip.route_id.getD ""
        stop_id := stu.stop_id
        start_date := update.trip.start_date
        trip_id := trip_id_of trip update
        timestamp := update.timestamp
        arrival := stu.arrival
        departure := stu.departure
        update_time := message.timestamp })

/-- scraper/realtime_writer.py: `insert_key_values` of `_write_trip_update`
— one keyed candidate row per stop time update that passes the checks
(gather keeps the association, then None results are dropped). -/
def candidate_rows (sys : Gtfs.TransitSystem) (update : Gtfs.TripUpdate)
    (message : Gtfs.FeedMessage) (trip : Option TripRow)
    (stop_exists : String → Bool) : List (String × RTRow) :=
  update.stop_time_updates.filterMap
    (get_insert_values sys update message trip stop_exists)

/-- scraper/realtime_writer.py: `insert_values` of `_write_trip_update` —
`list(dict(insert_key_values).values())`: collapse candidates sharing a
dedup key (the last one wins) before issuing the single statement. -/
def issued_rows (sys : Gtfs.TransitSystem) (update : Gtfs.TripUpdate)
    (message : Gtfs.FeedMessage) (trip : Option TripRow)
    (stop_exists : String → Bool) : List RTRow :=
  (PyDict.ofList (candidate_rows sys update message trip stop_exists)).map
    Prod.snd

/-- scraper/realtime_writer.py: `_write_trip_update` as a store
transformer; `resolve` stands for `_get_trip_row_from_descriptor`. -/
def write_trip_update (resolve : Gtfs.TripDescriptor → Option TripRow)
    (stop_exists : String → Bool) (sys : Gtfs.TransitSystem)
    (store : RTStore) (update : Gtfs.TripUpdate)
    (message : Gtfs.FeedMessage) : RTStore :=
  if ¬ is_valid_trip_descriptor update.trip then store
  else
    let trip := resolve update.trip
    if (candidate_rows sys update message trip stop_exists).length = 0 then
      store
    else upsertRows store (issued_rows sys update message trip stop_exists)

end RealtimeWriter

/-- Concrete row used by the C1 witness, with a given freshness value. -/
def c1Row (t : PyDateTime) : RealtimeWriter.RTRow :=
  { system := "nyc_mta", route_id := "1", stop_id := "101S",
    start_date := 737971, trip_id := "t", timestamp := none,
    arrival := some t, departure := none, update_time := t }

/-- Concrete store used by the C1 witness: every key holds the freshness-5
row. -/
def c1Store : RealtimeWriter.RTStore := fun _ => some (c1Row 5)

/-- Concrete feed message for the C2 witness: one valid update (with one
valid and one invalid stop event), one update without a route. -/
def c2Msg : Gtfs.FeedMessage :=
  { system := .NYC_MTA, feed_id := "1", timestamp := 1000,
    trip_replacements := [],
    trip_updates :=
      [ { trip := { trip_id := "a", route_id := some "1", start_date := 737971 },
          stop_time_updates :=
            [ { stop_id := "101S", arrival := some 1050, departure := none },
              { stop_id := "bogus", arrival := some 1060, departure := none },
              { stop_id := "101S", arrival := none, departure := none } ],
          timestamp := some 999 },
        { trip := { trip_id := "b", route_id := none, start_date := 737971 },
          stop_time_updates := [], timestamp := none } ],
    vehicle_positions := [] }

/-- Stop-existence check for the C2 witness: only stop "101S" exists. -/
def c2StopExists : String → Bool := fun sid => sid = "101S"

/-- Concrete message for the C5 witness: feed "1" with an "S" replacement,
a "6" replacement, and an explicit "6X" replacement. -/
def c5Msg : Gtfs.FeedMessage :=
  { system := .NYC_MTA, feed_id := "1", timestamp := 0,
    trip_replacements := [("S", 50), ("6", 100), ("6X", 42)],
    trip_updates := [], vehicle_positions := [] }

/-- Concrete trip update for the C4 witness: two stop events at the same
stop (colliding dedup key), one at a different stop. -/
def c4Update : Gtfs.TripUpdate :=
  { trip := { trip_id := "X", route_id := some "1", start_date := 737971 },
    stop_time_updates :=
      [ { stop_id := "101S", arrival := some 1050, departure := none },
        { stop_id := "101S", arrival := some 1060, departure := none },
        { stop_id := "102S", arrival := none, departure := some 1070 } ],
    timestamp := some 999 }

/-- Concrete message for the C4 witness. -/
def c4Msg : Gtfs.FeedMessage :=
  { system := .NYC_MTA, feed_id := "1", timestamp := 1000,
    trip_replacements := [], trip_updates := [c4Update],
    vehicle_positions := [] }

/-- Stop-existence check for the C4 witness. -/
def c4StopExists : String → Bool := fun sid => sid = "101S" ∨ sid = "102S"

namespace Nyc

/-- scraper/nyc.py: `ServiceDay`. -/
inductive ServiceDay where
  | WEEKDAY
  | SATURDAY
  | SUNDAY
  deriving DecidableEq, Repr

/-- Python `ServiceDay(code)`: enum lookup by value. -/
def ServiceDay.ofCode (code : List Char) : Option ServiceDay :=
  if code = "Weekday".data then some .WEEKDAY
  else if code = "Saturday".data then some .SATURDAY
  else if code = "Sunday".data then some .SUNDAY
  else none

/-- scraper/nyc.py: `TripID` named tuple. -/
structure TripID where
  sub_division : String
  effective_date : String
  service_day : ServiceDay
  origin_time : String
  trip_path : String
  route_id : String
  direction : String
  path_identifier : String
  deriving DecidableEq, Repr

/-- Python re `.` (no DOTALL): any character except a newline. -/
def notNewline (c : Char) : Bool := c ≠ '\n'

/-- Consume a literal from the head of the input. -/
def stripLit : List Char → List Char → Option (List Char)
  | [], s => some s
  | _ :: _, [] => none
  | c :: cs, x :: xs => if x = c then stripLit cs xs else none

/-- All ways a greedy `p+` can split the input: nonempty prefixes of
characters satisfying p, longest first (the order Python explores when
backtracking). -/
def greedySplits (p : Char → Bool) (s : List Char) :
    List (List Char × List Char) :=
  (List.range (s.length + 1)).reverse.filterMap fun k =>
    if k = 0 then none
    else if (s.take k).all p then some (s.take k, s.drop k) else none

/-- All ways the greedy `\.{1,2}` can match: two dots (leaving the rest)
before one dot (leaving the second dot in the input). -/
def dotsTaken : List Char → List (List Char × List Char)
  | '.' :: '.' :: rest => [(['.', '.'], rest), (['.'], '.' :: rest)]
  | '.' :: rest => [(['.'], rest)]
  | _ => []

/-- The greedy `-?`: with the dash consumed first, without it second. -/
def dashOpts : List Char → List (List Char)
  | '-' :: rest => [rest, '-' :: rest]
  | s => [s]

/-- The greedy `(GEN|SUPP)?`: GEN, then SUPP, then nothing. -/
def genSuppOpts (s : List Char) : List (List Char × List Char) :=
  (match stripLit "GEN".data s with
    | some r => [("GEN".data, r)]
    | none => []) ++
  (match stripLit "SUPP".data s with
    | some r => [("SUPP".data, r)]
    | none => []) ++ [([], s)]

/-- The alternation `A|B|SIR`, in regex order. -/
def subDivAlts (s : List Char) : List (List Char × List Char) :=
  (match stripLit "A".data s with
    | some r => [("A".data, r)]
    | none => []) ++
  (match stripLit "B".data s with
    | some r => [("B".data, r)]
    | none => []) ++
  (match stripLit "SIR".data s with
    | some r => [("SIR".data, r)]
    | none => [])

/-- The alternation `Weekday|Saturday|Sunday`, in regex order. -/
def svcAlts (s : List Char) : List (List Char × List Char) :=
  (match stripLit "Weekday".data s with
    | some r => [("Weekday".data, r)]
    | none => []) ++
  (match stripLit "Saturday".data s with
    | some r => [("Saturday".data, r)]
    | none => []) ++
  (match stripLit "Sunday".data s with
    | some r => [("Sunday".data, r)]
    | none => [])

/-- Exactly n digit characters (`\d{n}`; ids are ASCII so `\d` is 0-9). -/
def takeDigits (n : Nat) (s : List Char) : Option (List Char × List Char) :=
  if (s.take n).length = n ∧ (s.take n).all Char.isDigit then
    some (s.take n, s.drop n)
  else none

/-- The captured groups of `TRIP_ID_RE`. -/
structure TripIdGroups where
  sub_division : List Char
  effective_date : List Char
  unknown_1 : List Char
  service_code : List Char
  unknown_2 : List Char
  origin_time : List Char
  trip_path : List Char
  route_id_and_dots : List Char
  direction : Char
  path_identifier : List Char
  deriving DecidableEq, Repr

/-- `re.fullmatch(TRIP_ID_RE, trip_id, re.VERBOSE)`: a backtracking matcher
for the exact pattern of scraper/nyc.py —
sub_division `(A|B|SIR)`, optional dash, effective_date `FA\d+(GEN|SUPP)?`,
dash, unknown_1 `.+`, dash, service_code `(Weekday|Saturday|Sunday)`, dash,
unknown_2 `\d{2}`, underscore, origin_time `\d{6}`, underscore, and
trip_path = route_id_and_dots `.+`, dots `\.{1,2}`, direction `[NSEW]`,
path_identifier `.*` anchored at the end of the input.  Choice points are
explored in Python's order: quantifiers longest-first, alternatives
left-to-right, optional elements present-first; the first complete match
wins. -/
def matchTripId (s : List Char) : Option TripIdGroups :=
  (subDivAlts s).findSome? fun sd =>
  (dashOpts sd.2).findSome? fun s2 =>
  (stripLit "FA".data s2).bind fun s3 =>
  (greedySplits Char.isDigit s3).findSome? fun digs =>
  (genSuppOpts digs.2).findSome? fun gs =>
  (stripLit "-".data gs.2).bind fun s6 =>
  (greedySplits notNewline s6).findSome? fun u1 =>
  (stripLit "-".data u1.2).bind fun s8 =>
  (svcAlts s8).findSome? fun svc =>
  (stripLit "-".data svc.2).bind fun s10 =>
  (takeDigits 2 s10).bind fun u2 =>
  (stripLit "_".data u2.2).bind fun s12 =>
  (takeDigits 6 s12).bind fun ot =>
  (stripLit "_".data ot.2).bind fun s14 =>
  (greedySplits notNewline s14).findSome? fun rid =>
  (dotsTaken rid.2).findSome? fun dots =>
  match dots.2 with
  | [] => none
  | d :: s17 =>
    if (d = 'N' ∨ d = 'S' ∨ d = 'E' ∨ d = 'W') ∧ s17.all notNewline then
      some
        { sub_division := sd.1
          effective_date := "FA".data ++ digs.1 ++ gs.1
          unknown_1 := u1.1
          service_code := svc.1
          unknown_2 := u2.1
          origin_time := ot.1
          trip_path := rid.1 ++ dots.1 ++ d :: s17
          route_id_and_dots := rid.1
          direction := d
          path_identifier := s17 }
    else none

/-- Python `str.rstrip(".")`: remove trailing dots. -/
def rstripDots (l : List Char) : List Char :=
  (l.reverse.dropWhile (fun c => c = '.')).reverse

/-- scraper/nyc.py: `parse_trip_id` — fullmatch against the strict grammar
(raising on failure), strip the dots off the route, assert that the
unknown_1 group starts with the route id, and build the `TripID`.  Raised
exceptions are modelled as `Except.error`. -/
def parse_trip_id (trip_id : String) : Except String TripID :=
  match matchTripId trip_id.data with
  | none => .error ("Unable to parse trip_id " ++ trip_id)
  | some g =>
    let route_id := rstripDots g.route_id_and_dots
    if g.unknown_1.take route_id.length = route_id then
      match ServiceDay.ofCode g.service_code with
      | some sd =>
        .ok
          { sub_division := ⟨g.sub_division⟩
            effective_date := ⟨g.effective_date⟩
            service_day := sd
            origin_time := ⟨g.origin_time⟩
            trip_path := ⟨g.trip_path⟩
            route_id := ⟨route_id⟩
            direction := ⟨[g.direction]⟩
            path_identifier := ⟨g.path_identifier⟩ }
      | none => .error "ValueError: not a valid ServiceDay"
    else .error ("AssertionError: " ++ trip_id)

/-- Python `s[: -k]` on a string whose length is at least k: for k = 0 the
slice is `s[:0]`, the empty string (minus zero is zero), otherwise the
first `len(s) - k` characters. -/
def pySliceToNeg (s : String) (k : Nat) : String :=
  if k = 0 then "" else ⟨s.data.take (s.data.length - k)⟩

/-- scraper/nyc.py: `short_trip_ids` — parse, then return the two candidate
short keys: origin time + "_" + full trip path first, then origin time +
"_" + the trip path with `[: -len(path_identifier)]` applied. -/
def short_trip_ids (trip_id : String) : Except String (List String) :=
  (parse_trip_id trip_id).map fun parsed =>
    [ parsed.origin_time ++ "_" ++ parsed.trip_path,
      parsed.origin_time ++ "_" ++
        pySliceToNeg parsed.trip_path parsed.path_identifier.length ]

end Nyc

namespace MTARealtimeParser

/-- One row of the `mta_trip_id` table (db.py): the persisted
(system, alternate_trip_id, service_day) to trip_id mapping. -/
structure MtaTripIdRow where
  system : String
  alternate_trip_id : String
  service_day : Nyc.ServiceDay
  trip_id : String
  deriving DecidableEq, Repr

/-- scraper/mta_realtime_parser.py: `get_trip_row_from_id` — fetchone on
the `trips` table filtered by system and trip_id (the table key), i.e. the
first matching row. -/
def get_trip_row_from_id (trips : List TripRow) (sys : Gtfs.TransitSystem)
    (trip_id : String) : Option TripRow :=
  trips.find? (fun r => r.system = sys.value ∧ r.trip_id = trip_id)

/-- The weekday-to-service-day mapping inside `get_trip_row_from_descriptor`
(Monday is 0): 0-4 WEEKDAY, 5 SATURDAY, otherwise SUNDAY.  The Python
`raise ValueError` branch for a weekday above 6 is dead code because
`date.weekday()` always lies in 0..6 (here `pyWeekday` is a remainder
mod 7). -/
def service_day_of_date (d : PyDate) : Nyc.ServiceDay :=
  if pyWeekday d < 5 then .WEEKDAY
  else if pyWeekday d = 5 then .SATURDAY
  else .SUNDAY

/-- The `mta_trip_id` query of `get_trip_row_from_descriptor`: all rows
with this (system, alternate_trip_id, service_day). -/
def mta_trip_id_matches (mta : List MtaTripIdRow) (sys : Gtfs.TransitSystem)
    (alt : String) (sd : Nyc.ServiceDay) : List MtaTripIdRow :=
  mta.filter
    (fun r => r.system = sys.value ∧ r.alternate_trip_id = alt ∧
      r.service_day = sd)

/-- scraper/mta_realtime_parser.py: `get_trip_row_from_descriptor` — direct
trip-id lookup first; on a miss (the system is necessarily NYC_MTA, the
only member of the enum, so the early non-MTA return never fires) derive
the service day from the calendar weekday of the descriptor's start date
and query the alternate-id mapping: zero rows give none, more than one row
logs the ambiguity and gives none (no exception), exactly one row is
resolved through the direct lookup of its trip id. -/
def get_trip_row_from_descriptor (trips : List TripRow)
    (mta : List MtaTripIdRow) (sys : Gtfs.TransitSystem)
    (d : Gtfs.TripDescriptor) : Option TripRow :=
  match get_trip_row_from_id trips sys d.trip_id with
  | some row => some row
  | none =>
    match sys with
    | .NYC_MTA =>
      match mta_trip_id_matches mta sys d.trip_id
          (service_day_of_date d.start_date) with
      | [] => none
      | [r] => get_trip_row_from_id trips sys r.trip_id
      | _ :: _ :: _ => none

end MTARealtimeParser

/-- Concrete descriptor for the C7 witness; 737975 is divisible by 7, so
its weekday is (737975 + 6) % 7 = 6, a Sunday. -/
def c7Desc : Gtfs.TripDescriptor :=
  { trip_id := "010600_1..S", route_id := some "1", start_date := 737975 }

/-- Ambiguous mapping rows for the C7 witness: two scheduled trips share
the alternate id and service day. -/
def c7Mta : List MTARealtimeParser.MtaTripIdRow :=
  [ { system := "nyc_mta", alternate_trip_id := "010600_1..S",
      service_day := .SUNDAY, trip_id := "T1" },
    { system := "nyc_mta", alternate_trip_id := "010600_1..S",
      service_day := .SUNDAY, trip_id := "T2" } ]

namespace BatchProcess

/-- A JSON value — the tree form handled by the stdlib json module.
`json.dumps`/`json.loads` (an exact inverse pair on these trees, external
library code) are modelled as the identity on the tree, so serialization
stops here. -/
inductive JVal where
  | str (s : String)
  | num (n : Int)
  | jbool (b : Bool)
  | null
  | arr (elems : List JVal)
  | obj (fields : List (String × JVal))

/-- A Python value a checkpoint field can hold: JSON-native scalars and
lists pass through serialization unchanged; datetimes and dicts get the
{type, value} wrapper.  Dict entries hold JSON-native content (what
json.dumps accepts), matching the supported types of the spec. -/
inductive PyVal where
  | str (s : String)
  | int (n : Int)
  | pybool (b : Bool)
  | pynone
  | datetime (t : PyDateTime)
  | dict (fields : List (String × JVal))
  | list (elems : List JVal)

/-- Decimal rendering of an instant.  `value.astimezone(timezone.utc)
.isoformat()` and `datetime.fromisoformat` are inverse stdlib serializers
for aware datetimes; with instants modelled as numbers they become decimal
rendering and parsing. -/
def isoformat (t : PyDateTime) : String :=
  if t = 0 then "0" else ⟨((Nat.digits 10 t).map Nat.digitChar).reverse⟩

/-- Decimal parsing of an instant (`datetime.fromisoformat`); a malformed
string raises, modelled as none. -/
def fromisoformat (s : String) : Option PyDateTime :=
  if s.data ≠ [] ∧ s.data.all Char.isDigit then
    some (s.data.foldl (fun acc c => acc * 10 + (c.toNat - '0'.toNat)) 0)
  else none

/-- scraper/batch_process.py: `Checkpoint._serialize_value` — dicts become
{"type": "dict", "value": value}, datetimes become {"type": "datetime",
"value": isoformat}, everything else is passed through. -/
def serialize_value : PyVal → JVal
  | .dict v => .obj [("type", .str "dict"), ("value", .obj v)]
  | .datetime t =>
    .obj [("type", .str "datetime"), ("value", .str (isoformat t))]
  | .str s => .str s
  | .int n => .num n
  | .pybool b => .jbool b
  | .pynone => .null
  | .list l => .arr l

/-- scraper/batch_process.py: `Checkpoint._deserialize_value` — a JSON
mapping must be a {type, value} wrapper: "dict" unwraps to the raw mapping,
"datetime" parses the isoformat string, any other type tag raises;
non-mapping values pass through. -/
def deserialize_value : JVal → Except String PyVal
  | .obj fields =>
    match PyDict.lookup fields "type", PyDict.lookup fields "value" with
    | some (.str t), some v =>
      if t = "dict" then
        match v with
        | .obj d => .ok (.dict d)
        | _ => .error "dict value is not a mapping"
      else if t = "datetime" then
        match v with
        | .str s =>
          match fromisoformat s with
          | some inst => .ok (.datetime inst)
          | none => .error "ValueError: invalid isoformat string"
        | _ => .error "datetime value is not a string"
      else .error ("Cannot deserialize type " ++ t)
    | _, _ => .error "KeyError"
  | .str s => .ok (.str s)
  | .num n => .ok (.int n)
  | .jbool b => .ok (.pybool b)
  | .null => .ok .pynone
  | .arr l => .ok (.list l)

/-- scraper/batch_process.py: `Checkpoint` — a named mapping of fields. -/
structure Checkpoint where
  fields : List (String × PyVal)

/-- scraper/batch_process.py: `Checkpoint.dumps` up to the stdlib JSON text
layer: serialize every field value, keeping names and order. -/
def Checkpoint.dumps (cp : Checkpoint) : List (String × JVal) :=
  cp.fields.map (fun kv => (kv.1, serialize_value kv.2))

/-- The field-wise deserialization of `Checkpoint.loads` (an exception from
any field propagates). -/
def loads_fields : List (String × JVal) → Except String (List (String × PyVal))
  | [] => .ok []
  | (k, v) :: rest => do
    let pv ← deserialize_value v
    let r ← loads_fields rest
    .ok ((k, pv) :: r)

/-- scraper/batch_process.py: `Checkpoint.loads` from the JSON tree. -/
def Checkpoint.loads (j : List (String × JVal)) : Except String Checkpoint :=
  (loads_fields j).map (fun f => { fields := f })

/-- One row of `realtime_raw` (db.py) as seen by the batch job; the payload
columns (raw bytes, json mirror) are carried opaquely by `process_row` and
are irrelevant to ordering and checkpointing, so they are omitted here. -/
structure RawRow where
  system : String
  feed_id : String
  time : PyDateTime
  update_time : PyDateTime
  deriving DecidableEq, Repr

/-- The job's ordering columns ("update_time", "feed_id") read off a row. -/
def rowKey (r : RawRow) : PyDateTime × String := (r.update_time, r.feed_id)

/-- SQL tuple comparison `(update_time, feed_id) > (c1, c2)`:
lexicographic. -/
def keyLt (a b : PyDateTime × String) : Prop :=
  a.1 < b.1 ∨ (a.1 = b.1 ∧ a.2 < b.2)

instance (a b : PyDateTime × String) : Decidable (keyLt a b) := by
  unfold keyLt; infer_instance

/-- The total non-strict key comparison realized by ORDER BY. -/
def keyLe (a b : PyDateTime × String) : Bool := ! decide (keyLt b a)

/-- Sorted insertion; `sortByKey` models the ordered read (ORDER BY
update_time, feed_id) of the streamed query result. -/
def insertSorted (x : RawRow) : List RawRow → List RawRow
  | [] => [x]
  | y :: ys =>
    if keyLe (rowKey x) (rowKey y) then x :: y :: ys
    else y :: insertSorted x ys

/-- The ordered read: rows sorted by the ordering key. -/
def sortByKey (l : List RawRow) : List RawRow := l.foldr insertSorted []

/-- scraper/batch_process.py: `BatchProcessor.get_query` — apply the WHERE
filter, then (when resuming) the strict tuple comparison against the
checkpoint cursor (an exclusive bound), order by the cols, and apply the
optional LIMIT. -/
def get_query (table : List RawRow) (wh : RawRow → Bool)
    (checkpoint : Option (PyDateTime × String)) (limit : Option Nat) :
    List RawRow :=
  let rows := table.filter fun r => wh r &&
    (match checkpoint with
     | none => true
     | some c => decide (keyLt c (rowKey r)))
  match limit with
  | none => sortByKey rows
  | some n => (sortByKey rows).take n

/-- scraper/batch_process.py: BATCH_SIZE. -/
def BATCH_SIZE : Nat := 100

/-- Structural worker for `fetchPages`; the fuel starts at the stream
length, which suffices because every fetch consumes at least one row. -/
def fetchPagesGo (b : Nat) : Nat → List RawRow → List (List RawRow)
  | _, [] => []
  | 0, _ => []
  | fuel + 1, x :: xs =>
    (x :: xs.take (b - 1)) :: fetchPagesGo b fuel (xs.drop (b - 1))

/-- `res.fetchmany(BATCH_SIZE)` repeated until an empty fetch: the stream
cut into successive blocks of BATCH_SIZE rows (the final block may be
shorter). -/
def fetchPages (b : Nat) (l : List RawRow) : List (List RawRow) :=
  fetchPagesGo b l.length l

/-- Observable events of the `_main` loop: a row being processed, a
checkpoint being persisted. -/
inductive Ev where
  | proc (r : RawRow)
  | ckpt (c : PyDateTime × String)
  deriving DecidableEq, Repr

/-- One loop iteration of `_main` over a fetched page: process every row of
the page (grouped or chunked, every row of the page is awaited inside the
iteration), then build the checkpoint from the page's last row on the cols
and persist it.  An empty fetch breaks the loop without checkpointing. -/
def pageTrace (p : List RawRow) : List Ev :=
  match p.getLast? with
  | none => []
  | some r => p.map Ev.proc ++ [Ev.ckpt (rowKey r)]

/-- The whole run, page after page. -/
def run_trace (pages : List (List RawRow)) : List Ev :=
  pages.flatMap pageTrace

/-- The cursors persisted by a run, in order. -/
def checkpoints_of (pages : List (List RawRow)) :
    List (PyDateTime × String) :=
  pages.filterMap (fun p => (p.getLast?).map rowKey)

end BatchProcess

namespace MTARealtimeProcessor

open Gtfs

/-- scraper/mta_realtime_processor.py: `stu.arrival if stu.arrival is not
None else stu.departure` (the stop's time, arrival preferred). -/
def arrival_or_departure (stu : StopTimeUpdate) : Option PyDateTime :=
  stu.arrival.orElse (fun _ => stu.departure)

/-- Modelled from the spec: the processor reads `update.trip.train_id`, but
the `gtfs.TripDescriptor` committed in this source tree — like the spec's
TripDescriptor {tripId, routeId?, serviceDate} — has no train identifier;
the updated descriptor type this file expects is missing from src/.  The
attribute is modelled as absent, so `update.trip.train_id or ""` (train_id
is a primary key and cannot be None) yields "". -/
def train_id_of (_update : TripUpdate) : String := ""

/-- One row of the `realtime_stop_times2` table.  Modelled from the spec:
db.py in this tree does not declare the table; its columns are those of the
values dict built by `process_trip_update`. -/
structure ST2Row where
  system : String
  route_id : Option String
  start_date : PyDate
  trip_id : String
  train_id : String
  stop_id : String
  arrival : Option PyDateTime
  departure : Option PyDateTime
  departure_or_arrival : Option PyDateTime
  time : PyDateTime
  deriving DecidableEq, Repr

/-- One row of the `realtime_raw_stop_times` table.  Modelled from the
spec: db.py in this tree does not declare the table; its columns are those
of the values dict built by `process_trip_update`. -/
structure RawSTRow where
  system : String
  route_id : Option String
  start_date : PyDate
  trip_id : String
  train_id : String
  time : PyDateTime
  stop_times : List StopTimeUpdate
  update_time : PyDateTime
  deriving DecidableEq, Repr

/-- A write issued against the reconciled output store.  The vehicle
constructor is the write of `RealtimeWriter._write_vehicle_position`
(issued only by the deprecated batch path, never by this processor). -/
inductive WriteEffect where
  | stop_times2_upsert (rows : List ST2Row)
  | stop_times2_delete (system : String) (route_id : Option String)
      (start_date : PyDate) (trip_id : String) (train_id : String)
      (stop_ids : List String)
  | raw_stop_times_upsert (row : RawSTRow)
  | vehicle_position_upsert (system : String) (trip : TripDescriptor)
      (stop_id : String) (update_time : PyDateTime)
  deriving DecidableEq, Repr

/-- The stop's time with the unreachable default 0: on this code path every
stop event passed reconciliation, so one of arrival/departure is present
(C2); a None here would make the Python comparisons raise. -/
def time_of (stu : StopTimeUpdate) : PyDateTime :=
  (arrival_or_departure stu).getD 0

/-- `min(...)` over the current stop list (used only when nonempty). -/
def earliest_stop_time (stus : List StopTimeUpdate) : PyDateTime :=
  match stus.map time_of with
  | [] => 0
  | x :: xs => xs.foldl min x

/-- The outdated-stop scan of `process_trip_update`: stops of the latest
previous entry that are missing from the current list, would arrive after
the message time, and no earlier than the earliest current stop. -/
def outdated_stop_ids (prev0 current : List StopTimeUpdate)
    (msg_ts : PyDateTime) : List String :=
  let current_stop_ids := current.map (·.stop_id)
  (prev0.filter fun stu =>
    ¬ current_stop_ids.contains stu.stop_id ∧
    time_of stu > msg_ts ∧
    time_of stu ≥ earliest_stop_time current).map (·.stop_id)

/-- scraper/mta_realtime_processor.py: `process_trip_update` as a write
emitter.  `resolve` is `parser.get_trip_row_from_descriptor`; `prev_rows`
is the result of the `realtime_raw_stop_times` select (latest ≤ 5 previous
entries, newest first); `now` is the wall clock.  Emits: the conditional
upsert into realtime_stop_times2 when the stop list is nonempty, the delete
of outdated stops when both the previous entry and the stop list are
nonempty and the scan found any, and always the upsert of the raw entry. -/
def process_trip_update (resolve : TripDescriptor → Option TripRow)
    (prev_rows : List (List StopTimeUpdate)) (now : PyDateTime)
    (update : TripUpdate) (message : FeedMessage) : List WriteEffect :=
  let trip := resolve update.trip
  let route_id := update.trip.route_id
  let start_date := update.trip.start_date
  let trip_id :=
    match trip with
    | some t => t.trip_id
    | none => update.trip.trip_id
  let train_id := train_id_of update
  let stop_time_updates := update.stop_time_updates
  (if stop_time_updates.length > 0 then
    [WriteEffect.stop_times2_upsert (stop_time_updates.map fun stu =>
      { system := TransitSystem.NYC_MTA.value, route_id := route_id,
        start_date := start_date, trip_id := trip_id, train_id := train_id,
        stop_id := stu.stop_id, arrival := stu.arrival,
        departure := stu.departure,
        departure_or_arrival := stu.departure.orElse (fun _ => stu.arrival),
        time := update.timestamp.getD message.timestamp })]
  else []) ++
  (if prev_rows.length > 0 ∧ stop_time_updates.length > 0 then
    (if (outdated_stop_ids (prev_rows.headD []) stop_time_updates
          message.timestamp).length > 0 then
      [WriteEffect.stop_times2_delete TransitSystem.NYC_MTA.value route_id
        start_date trip_id train_id
        (outdated_stop_ids (prev_rows.headD []) stop_time_updates
          message.timestamp)]
    else [])
  else []) ++
  [WriteEffect.raw_stop_times_upsert
    { system := TransitSystem.NYC_MTA.value, route_id := route_id,
      start_date := start_date, trip_id := trip_id, train_id := train_id,
      time := message.timestamp, stop_times := stop_time_updates,
      update_time := now }]

/-- scraper/mta_realtime_processor.py: `process_row` after decoding —
reconcile the feed message with `fix_feed_mesesage`, then gather
`process_trip_update` over the reconciled trip updates only ("Only write
trip updates.  Vehicle positions are unusable ...").  Returns the
reconciled message (vehicle positions still on it) and the writes. -/
def process_row (resolve : TripDescriptor → Option TripRow)
    (stop_exists : String → Bool)
    (prevFn : TripUpdate → List (List StopTimeUpdate)) (now : PyDateTime)
    (message : FeedMessage) : FeedMessage × List WriteEffect :=
  let fixed := MTARealtimeParser.fix_feed_mesesage stop_exists message
  (fixed,
    fixed.trip_updates.flatMap fun u =>
      process_trip_update resolve (prevFn u) now u fixed)

end MTARealtimeProcessor

/-- Concrete table for the C3 witness: 101 rows of one feed with strictly
increasing capture times, so the run has two pages (100 rows and 1 row). -/
def c3Table : List BatchProcess.RawRow :=
  (List.range 101).map fun i =>
    { system := "nyc_mta", feed_id := "1", time := i, update_time := 100 + i }

/-- The trip id of the C6 example. -/
def c6Id : String := "AFA19GEN-1037-Sunday-00_010600_1..S03R"

/-- The parse of the C6 example. -/
def c6Tid : Nyc.TripID :=
  { sub_division := "A", effective_date := "FA19GEN",
    service_day := .SUNDAY, origin_time := "010600", trip_path := "1..S03R",
    route_id := "1", direction := "S", path_identifier := "03R" }

/-- The trip id of the C10 witness: an accepted id whose path identifier is
empty. -/
def c10Id : String := "AFA19GEN-1037-Sunday-00_010600_1..S"

/-- The parse of the C10 witness id. -/
def c10Tid : Nyc.TripID :=
  { sub_division := "A", effective_date := "FA19GEN",
    service_day := .SUNDAY, origin_time := "010600", trip_path := "1..S",
    route_id := "1", direction := "S", path_identifier := "" }

/-!  Theorems.  -/

namespace PyDict

theorem lookup_nil {K V : Type} [DecidableEq K] (k : K) :
    lookup ([] : List (K × V)) k = none := rfl

theorem lookup_cons {K V : Type} [DecidableEq K] (kv : K × V)
    (m : List (K × V)) (k : K) :
    lookup (kv :: m) k = if kv.1 = k then some kv.2 else lookup m k := by
  by_cases h : kv.1 = k <;> simp [lookup, List.find?, h]

theorem lookup_assign_self {K V : Type} [DecidableEq K] (m : List (K × V))
    (k : K) (v : V) : lookup (assign m k v) k = some v := by
  induction m with
  | nil => simp [assign, lookup_cons]
  | cons kv rest ih =>
    by_cases h : kv.1 = k
    · simp [assign, h, lookup_cons]
    · simp [assign, h, lookup_cons, ih]

theorem lookup_assign_other {K V : Type} [DecidableEq K] (m : List (K × V))
    (k k' : K) (v : V) (hne : k ≠ k') :
    lookup (assign m k v) k' = lookup m k' := by
  induction m with
  | nil => simp [assign, lookup_cons, lookup_nil, hne]
  | cons kv rest ih =>
    by_cases h : kv.1 = k
    · simp [assign, h, lookup_cons, hne, lookup]
    · simp [assign, h, lookup_cons, ih]

theorem mem_assign {K V : Type} [DecidableEq K] {m : List (K × V)} {k : K}
    {v : V} {kv : K × V} (h : kv ∈ assign m k v) : kv ∈ m ∨ kv = (k, v) := by
  induction m with
  | nil => right; simpa [assign] using h
  | cons kv0 rest ih =>
    by_cases hk : kv0.1 = k
    · simp only [assign, if_pos hk] at h
      rcases List.mem_cons.mp h with he | ht
      · right; exact he
      · left; exact List.mem_cons_of_mem kv0 ht
    · simp only [assign, if_neg hk] at h
      rcases List.mem_cons.mp h with he | ht
      · left; exact he ▸ List.mem_cons_self kv0 rest
      · rcases ih ht with hm | he
        · left; exact List.mem_cons_of_mem kv0 hm
        · right; exact he

theorem keys_assign_self {K V : Type} [DecidableEq K] (m : List (K × V))
    (k : K) (v : V) : k ∈ (assign m k v).map Prod.fst := by
  induction m with
  | nil => simp [assign]
  | cons kv0 rest ih =>
    by_cases hk : kv0.1 = k
    · simp [assign, hk]
    · simp only [assign, if_neg hk, List.map_cons, List.mem_cons]
      right; exact ih

theorem keys_assign_mono {K V : Type} [DecidableEq K] {m : List (K × V)}
    {k' : K} (k : K) (v : V) (h : k' ∈ m.map Prod.fst) :
    k' ∈ (assign m k v).map Prod.fst := by
  induction m with
  | nil => cases h
  | cons kv0 rest ih =>
    rcases List.mem_cons.mp h with he | ht
    · by_cases hk : kv0.1 = k
      · simp only [assign, if_pos hk, List.map_cons, List.mem_cons]
        left; exact he.trans hk
      · simp [assign, hk, he]
    · by_cases hk : kv0.1 = k
      · simp only [assign, if_pos hk, List.map_cons, List.mem_cons]
        right; exact ht
      · simp only [assign, if_neg hk, List.map_cons, List.mem_cons]
        right; exact ih ht

theorem keys_assign_sub {K V : Type} [DecidableEq K] {m : List (K × V)}
    {k k' : K} {v : V} (h : k' ∈ (assign m k v).map Prod.fst) :
    k' ∈ m.map Prod.fst ∨ k' = k := by
  rcases List.mem_map.mp h with ⟨kv, hkv, hfst⟩
  rcases mem_assign hkv with hm | he
  · left; exact hfst ▸ List.mem_map_of_mem Prod.fst hm
  · right; rw [← hfst, he]

theorem nodup_keys_assign {K V : Type} [DecidableEq K] {m : List (K × V)}
    (k : K) (v : V) (h : (m.map Prod.fst).Nodup) :
    ((assign m k v).map Prod.fst).Nodup := by
  induction m with
  | nil => simp [assign]
  | cons kv0 rest ih =>
    simp only [List.map_cons, List.nodup_cons] at h
    by_cases hk : kv0.1 = k
    · simp only [assign, if_pos hk, List.map_cons, List.nodup_cons]
      exact ⟨hk ▸ h.1, h.2⟩
    · simp only [assign, if_neg hk, List.map_cons, List.nodup_cons]
      refine ⟨fun hc => ?_, ih h.2⟩
      rcases keys_assign_sub hc with hm | he
      · exact h.1 hm
      · exact hk he

theorem foldl_assign_mem_sub {K V : Type} [DecidableEq K] :
    ∀ (l acc : List (K × V)) (kv : K × V),
      kv ∈ l.foldl (fun m p => assign m p.1 p.2) acc → kv ∈ acc ∨ kv ∈ l := by
  intro l
  induction l with
  | nil => intro acc kv h; left; exact h
  | cons p rest ih =>
    intro acc kv h
    rcases ih (assign acc p.1 p.2) kv h with ha | hr
    · rcases mem_assign ha with hm | he
      · left; exact hm
      · right; rw [he]; exact List.mem_cons_self p rest
    · right; exact List.mem_cons_of_mem p hr

/-- Every entry of `dict(pairs)` is one of the input pairs. -/
theorem ofList_mem_sub {K V : Type} [DecidableEq K] {l : List (K × V)}
    {kv : K × V} (h : kv ∈ ofList l) : kv ∈ l := by
  rcases foldl_assign_mem_sub l [] kv h with hc | hm
  · cases hc
  · exact hm

theorem foldl_assign_nodup_keys {K V : Type} [DecidableEq K] :
    ∀ (l acc : List (K × V)), (acc.map Prod.fst).Nodup →
      ((l.foldl (fun m p => assign m p.1 p.2) acc).map Prod.fst).Nodup := by
  intro l
  induction l with
  | nil => intro acc h; exact h
  | cons p rest ih =>
    intro acc h
    exact ih (assign acc p.1 p.2) (nodup_keys_assign p.1 p.2 h)

/-- The keys of `dict(pairs)` are pairwise distinct. -/
theorem ofList_nodup_keys {K V : Type} [DecidableEq K] (l : List (K × V)) :
    ((ofList l).map Prod.fst).Nodup :=
  foldl_assign_nodup_keys l [] (by simp)

theorem foldl_assign_keys_cover {K V : Type} [DecidableEq K] :
    ∀ (l acc : List (K × V)) (k : K),
      (k ∈ acc.map Prod.fst ∨ k ∈ l.map Prod.fst) →
      k ∈ (l.foldl (fun m p => assign m p.1 p.2) acc).map Prod.fst := by
  intro l
  induction l with
  | nil =>
    intro acc k h
    rcases h with h | h
    · exact h
    · cases h
  | cons p rest ih =>
    intro acc k h
    apply ih (assign acc p.1 p.2) k
    rcases h with ha | hl
    · left; exact keys_assign_mono p.1 p.2 ha
    · rcases List.mem_cons.mp hl with he | ht
      · left; exact he ▸ keys_assign_self acc p.1 p.2
      · right; exact ht

/-- Every input key is a key of `dict(pairs)`. -/
theorem ofList_keys_cover {K V : Type} [DecidableEq K] {l : List (K × V)}
    {kv : K × V} (h : kv ∈ l) : kv.1 ∈ (ofList l).map Prod.fst :=
  foldl_assign_keys_cover l [] kv.1 (Or.inr (List.mem_map_of_mem Prod.fst h))

end PyDict

/-- A successful lookup comes from a binding in the list. -/
theorem PyDict.lookup_mem {K V : Type} [DecidableEq K] {m : List (K × V)}
    {k : K} {v : V} (h : PyDict.lookup m k = some v) : (k, v) ∈ m := by
  unfold PyDict.lookup at h
  cases hf : m.find? (fun kv => kv.1 = k) with
  | none => rw [hf] at h; cases h
  | some kv =>
    rw [hf] at h
    obtain ⟨a, b⟩ := kv
    have hm := List.mem_of_find?_eq_some hf
    have hp := List.find?_some hf
    have ha : a = k := by simpa using hp
    have hb : b = v := by simpa using h
    rw [← ha, ← hb]; exact hm

/-- In a list with pairwise-distinct keys, a key determines its value. -/
theorem nodup_keys_value_eq {K V : Type} [DecidableEq K]
    {m : List (K × V)} (h : (m.map Prod.fst).Nodup) {k : K} {v v' : V}
    (h1 : (k, v) ∈ m) (h2 : (k, v') ∈ m) : v = v' := by
  induction m with
  | nil => cases h1
  | cons kv rest ih =>
    obtain ⟨k0, v0⟩ := kv
    simp only [List.map_cons, List.nodup_cons] at h
    rcases List.mem_cons.mp h1 with he1 | ht1 <;>
      rcases List.mem_cons.mp h2 with he2 | ht2
    · exact (Prod.ext_iff.mp he1).2.trans (Prod.ext_iff.mp he2).2.symm
    · have hkk : k = k0 := (Prod.ext_iff.mp he1).1
      exact absurd (hkk ▸ List.mem_map.mpr ⟨(k, v'), ht2, rfl⟩) h.1
    · have hkk : k = k0 := (Prod.ext_iff.mp he2).1
      exact absurd (hkk ▸ List.mem_map.mpr ⟨(k, v), ht1, rfl⟩) h.1
    · exact ih h.2 ht1 ht2

/-- afilter is exactly an order-preserving filter. -/
theorem afilter_eq_filter {α : Type} (p : α → Bool) (l : List α) :
    afilter p l = l.filter p := by
  induction l with
  | nil => rfl
  | cons x xs ih =>
    by_cases h : p x <;> simp [afilter, List.filter, h] <;>
      simpa [afilter] using ih

/-- Cancellation for the writer's "||"-joined key strings: equal results
with equal surroundings force the sandwiched segment to be equal. -/
theorem string_sandwich_inj (A B C s1 s2 : String)
    (h : A ++ s1 ++ B ++ C = A ++ s2 ++ B ++ C) : s1 = s2 := by
  have hd := congrArg String.data h
  simp only [String.data_append] at hd
  have h1 := List.append_cancel_right hd
  have h2 := List.append_cancel_right h1
  have h3 := List.append_cancel_left h2
  cases s1; cases s2; exact congrArg String.mk h3

namespace MTARealtimeParser

theorem lookup_backfill_entry_some {acc : List (String × PyDateTime)}
    {c : Bool} {k k' : String} {t : PyDateTime} {v : PyDateTime}
    (h : PyDict.lookup acc k' = some v) :
    PyDict.lookup (backfill_entry acc c k t) k' = some v := by
  unfold backfill_entry
  cases c with
  | false => simpa using h
  | true =>
    rw [if_pos rfl]
    by_cases hk : k = k'
    · subst hk; simp [h]
    · cases hs : (PyDict.lookup acc k).isSome with
      | true => rw [if_pos rfl]; exact h
      | false =>
        rw [if_neg (by simp)]
        rw [PyDict.lookup_assign_other acc k k' t hk]; exact h

theorem lookup_backfill_entry_ne {acc : List (String × PyDateTime)}
    {c : Bool} {k k' : String} {t : PyDateTime} (hk : k' ≠ k) :
    PyDict.lookup (backfill_entry acc c k t) k' = PyDict.lookup acc k' := by
  unfold backfill_entry
  split
  · split
    · rfl
    · exact PyDict.lookup_assign_other acc k k' t (Ne.symm hk)
  · rfl

theorem lookup_backfill_entry_fires {acc : List (String × PyDateTime)}
    {k : String} {t : PyDateTime}
    (h : PyDict.lookup acc k = none) :
    PyDict.lookup (backfill_entry acc true k t) k = some t := by
  simp [backfill_entry, h, PyDict.lookup_assign_self]

/-- repl_step never deletes or overwrites a present binding. -/
theorem repl_step_preserves_some {feed : String}
    {acc : List (String × PyDateTime)} {item : String × PyDateTime}
    {k : String} {v : PyDateTime}
    (h : PyDict.lookup acc k = some v) :
    PyDict.lookup (repl_step feed acc item) k = some v :=
  lookup_backfill_entry_some
    (lookup_backfill_entry_some (lookup_backfill_entry_some h))

/-- The whole loop never deletes or overwrites a present binding. -/
theorem fold_repl_preserves_some {feed : String} {k : String}
    {v : PyDateTime} :
    ∀ (l : List (String × PyDateTime)) (acc : List (String × PyDateTime)),
      PyDict.lookup acc k = some v →
      PyDict.lookup (l.foldl (repl_step feed) acc) k = some v := by
  intro l
  induction l with
  | nil => intro acc h; exact h
  | cons it rest ih =>
    intro acc h
    exact ih (repl_step feed acc it) (repl_step_preserves_some h)

/-- An item whose route is not "6" leaves the "6X" lookup unchanged. -/
theorem repl_step_lookup_6X {feed : String}
    {acc : List (String × PyDateTime)} {item : String × PyDateTime}
    (h6 : item.1 ≠ "6") :
    PyDict.lookup (repl_step feed acc item) "6X" = PyDict.lookup acc "6X" := by
  unfold repl_step
  rw [lookup_backfill_entry_ne (by decide)]
  rw [show (decide (item.1 = "6")) = false by simpa using h6]
  rw [show backfill_entry (backfill_entry acc
      (decide (feed = "1" ∧ item.1 = "S")) "GS" item.2) false "6X" item.2 =
      backfill_entry acc (decide (feed = "1" ∧ item.1 = "S")) "GS" item.2
    from rfl]
  exact lookup_backfill_entry_ne (by decide)

/-- An item whose route is not "7" leaves the "7X" lookup unchanged. -/
theorem repl_step_lookup_7X {feed : String}
    {acc : List (String × PyDateTime)} {item : String × PyDateTime}
    (h7 : item.1 ≠ "7") :
    PyDict.lookup (repl_step feed acc item) "7X" = PyDict.lookup acc "7X" := by
  unfold repl_step
  rw [show (decide (item.1 = "7")) = false by simpa using h7]
  rw [show ∀ a : List (String × PyDateTime),
      backfill_entry a false "7X" item.2 = a from fun _ => rfl]
  rw [lookup_backfill_entry_ne (by decide)]
  exact lookup_backfill_entry_ne (by decide)

/-- An item that does not fire the "S"-in-feed-1 rule leaves the "GS"
lookup unchanged. -/
theorem repl_step_lookup_GS {feed : String}
    {acc : List (String × PyDateTime)} {item : String × PyDateTime}
    (hS : ¬ (feed = "1" ∧ item.1 = "S")) :
    PyDict.lookup (repl_step feed acc item) "GS" = PyDict.lookup acc "GS" := by
  unfold repl_step
  rw [lookup_backfill_entry_ne (by decide), lookup_backfill_entry_ne (by decide)]
  rw [show (decide (feed = "1" ∧ item.1 = "S")) = false by simpa using hS]
  rfl

/-- The item that fires the "6" rule installs its end time at "6X" when
"6X" is still absent. -/
theorem repl_step_fires_6X {feed : String}
    {acc : List (String × PyDateTime)} {item : String × PyDateTime}
    (h6 : item.1 = "6") (hnone : PyDict.lookup acc "6X" = none) :
    PyDict.lookup (repl_step feed acc item) "6X" = some item.2 := by
  unfold repl_step
  rw [lookup_backfill_entry_ne (by decide)]
  rw [show (decide (item.1 = "6")) = true by simpa using h6]
  exact lookup_backfill_entry_fires
    (by rw [lookup_backfill_entry_ne (by decide)]; exact hnone)

/-- The item that fires the "7" rule installs its end time at "7X" when
"7X" is still absent. -/
theorem repl_step_fires_7X {feed : String}
    {acc : List (String × PyDateTime)} {item : String × PyDateTime}
    (h7 : item.1 = "7") (hnone : PyDict.lookup acc "7X" = none) :
    PyDict.lookup (repl_step feed acc item) "7X" = some item.2 := by
  unfold repl_step
  rw [show (decide (item.1 = "7")) = true by simpa using h7]
  exact lookup_backfill_entry_fires
    (by rw [lookup_backfill_entry_ne (by decide),
            lookup_backfill_entry_ne (by decide)]; exact hnone)

/-- The item that fires the "S"-in-feed-1 rule installs its end time at
"GS" when "GS" is still absent. -/
theorem repl_step_fires_GS {feed : String}
    {acc : List (String × PyDateTime)} {item : String × PyDateTime}
    (hf : feed = "1") (hS : item.1 = "S")
    (hnone : PyDict.lookup acc "GS" = none) :
    PyDict.lookup (repl_step feed acc item) "GS" = some item.2 := by
  unfold repl_step
  rw [lookup_backfill_entry_ne (by decide), lookup_backfill_entry_ne (by decide)]
  rw [show (decide (feed = "1" ∧ item.1 = "S")) = true by simp [hf, hS]]
  exact lookup_backfill_entry_fires hnone

/-- If the unique item with route `"6"` carries end time T and "6X" is
absent from the accumulator, the loop ends with "6X" bound to T. -/
theorem fold_repl_6X {feed : String} {T : PyDateTime} :
    ∀ (l : List (String × PyDateTime)) (acc : List (String × PyDateTime)),
      PyDict.lookup acc "6X" = none → ("6", T) ∈ l →
      (∀ T', ("6", T') ∈ l → T' = T) →
      PyDict.lookup (l.foldl (repl_step feed) acc) "6X" = some T := by
  intro l
  induction l with
  | nil => intro acc _ hmem _; cases hmem
  | cons it rest ih =>
    intro acc hnone hmem huniq
    by_cases h6 : it.1 = "6"
    · have hit : it = ("6", it.2) := by
        cases it; simp_all
      have hT : it.2 = T := huniq it.2 (by rw [← hit]; exact List.mem_cons_self it rest)
      have hstep : PyDict.lookup (repl_step feed acc it) "6X" = some T := by
        rw [repl_step_fires_6X h6 hnone, hT]
      exact fold_repl_preserves_some rest _ hstep
    · have hmem' : ("6", T) ∈ rest := by
        rcases List.mem_cons.mp hmem with he | ht
        · exact absurd (congrArg Prod.fst he.symm) h6
        · exact ht
      have hstep := @repl_step_lookup_6X feed acc it h6
      exact ih (repl_step feed acc it) (hstep.trans hnone) hmem'
        (fun T' h => huniq T' (List.mem_cons_of_mem it h))

/-- If the unique item with route `"7"` carries end time T and "7X" is
absent from the accumulator, the loop ends with "7X" bound to T. -/
theorem fold_repl_7X {feed : String} {T : PyDateTime} :
    ∀ (l : List (String × PyDateTime)) (acc : List (String × PyDateTime)),
      PyDict.lookup acc "7X" = none → ("7", T) ∈ l →
      (∀ T', ("7", T') ∈ l → T' = T) →
      PyDict.lookup (l.foldl (repl_step feed) acc) "7X" = some T := by
  intro l
  induction l with
  | nil => intro acc _ hmem _; cases hmem
  | cons it rest ih =>
    intro acc hnone hmem huniq
    by_cases h7 : it.1 = "7"
    · have hit : it = ("7", it.2) := by
        cases it; simp_all
      have hT : it.2 = T := huniq it.2 (by rw [← hit]; exact List.mem_cons_self it rest)
      have hstep : PyDict.lookup (repl_step feed acc it) "7X" = some T := by
        rw [repl_step_fires_7X h7 hnone, hT]
      exact fold_repl_preserves_some rest _ hstep
    · have hmem' : ("7", T) ∈ rest := by
        rcases List.mem_cons.mp hmem with he | ht
        · exact absurd (congrArg Prod.fst he.symm) h7
        · exact ht
      have hstep := @repl_step_lookup_7X feed acc it h7
      exact ih (repl_step feed acc it) (hstep.trans hnone) hmem'
        (fun T' h => huniq T' (List.mem_cons_of_mem it h))

/-- If the feed is "1", the unique item with route `"S"` carries end time T
and "GS" is absent from the accumulator, the loop ends with "GS" bound to
T. -/
theorem fold_repl_GS {T : PyDateTime} :
    ∀ (l : List (String × PyDateTime)) (acc : List (String × PyDateTime)),
      PyDict.lookup acc "GS" = none → ("S", T) ∈ l →
      (∀ T', ("S", T') ∈ l → T' = T) →
      PyDict.lookup (l.foldl (repl_step "1") acc) "GS" = some T := by
  intro l
  induction l with
  | nil => intro acc _ hmem _; cases hmem
  | cons it rest ih =>
    intro acc hnone hmem huniq
    by_cases hS : it.1 = "S"
    · have hit : it = ("S", it.2) := by
        cases it; simp_all
      have hT : it.2 = T := huniq it.2 (by rw [← hit]; exact List.mem_cons_self it rest)
      have hstep : PyDict.lookup (repl_step "1" acc it) "GS" = some T := by
        rw [repl_step_fires_GS rfl hS hnone, hT]
      exact fold_repl_preserves_some rest _ hstep
    · have hmem' : ("S", T) ∈ rest := by
        rcases List.mem_cons.mp hmem with he | ht
        · exact absurd (congrArg Prod.fst he.symm) hS
        · exact ht
      have hstep := @repl_step_lookup_GS "1" acc it
        (by intro hc; exact hS hc.2)
      exact ih (repl_step "1" acc it) (hstep.trans hnone) hmem'
        (fun T' h => huniq T' (List.mem_cons_of_mem it h))

/-- When the feed is not "1", the loop never touches "GS". -/
theorem fold_repl_GS_other_feed {feed : String} (hf : feed ≠ "1") :
    ∀ (l : List (String × PyDateTime)) (acc : List (String × PyDateTime)),
      PyDict.lookup (l.foldl (repl_step feed) acc) "GS" =
        PyDict.lookup acc "GS" := by
  intro l
  induction l with
  | nil => intro acc; rfl
  | cons it rest ih =>
    intro acc
    rw [List.foldl_cons, ih,
      repl_step_lookup_GS (by intro hc; exact hf hc.1)]

/-- Characterization of `_fix_trip_updates`: drop exactly the updates whose
descriptor lacks a route, and filter each survivor's stop events. -/
theorem fix_trip_updates_eq (stop_exists : String → Bool)
    (updates : List Gtfs.TripUpdate) :
    fix_trip_updates stop_exists updates =
      (updates.filter (fun u => is_valid_trip_descriptor u.trip)).map
        (fun u => { u with
          stop_time_updates :=
            u.stop_time_updates.filter
              (is_valid_stop_time_update stop_exists) }) := by
  induction updates with
  | nil => rfl
  | cons u us ih =>
    simp only [fix_trip_updates, List.filterMap_cons, List.filter_cons] at *
    by_cases h : is_valid_trip_descriptor u.trip
    · simp [fix_trip_update, h, afilter_eq_filter, ih]
    · simp [fix_trip_update, h, ih]

end MTARealtimeParser

open RealtimeWriter in
/-- C1: for a stored row and an incoming row sharing the conflict key, the
conditional upsert of `_write_trip_update` replaces the stored row if and
only if the incoming freshness timestamp (`update_time`, the message's
declared timestamp) is greater than or equal to the stored one — the result
at that key is the incoming row when `old.update_time <= r.update_time` and
the untouched stored row otherwise; moreover writing freshness t2 and then
t1 with t1 < t2 leaves the whole store exactly as it was after the t2
write: the t1 write is a no-op. -/
theorem upsert_freshness_conditional
    (store : RTStore) (r old : RTRow) (h : store r.key = some old)
    (r1 r2 : RTRow) (hkey : r1.key = r2.key)
    (hlt : r1.update_time < r2.update_time) :
    (upsertRow store r r.key =
        if old.update_time ≤ r.update_time then some r else some old) ∧
    ((old.update_time ≤ r.update_time → upsertRow store r r.key = some r) ∧
      (¬ old.update_time ≤ r.update_time → upsertRow store r r.key = some old)) ∧
    upsertRow (upsertRow store r2) r1 = upsertRow store r2 := by
  refine ⟨?_, ⟨?_, ?_⟩, ?_⟩
  · simp [upsertRow, h]
  · intro hle; simp [upsertRow, h, hle]
  · intro hgt; simp [upsertRow, h, hgt]
  · funext k
    by_cases hk : k = r1.key
    · subst hk
      simp only [upsertRow, if_pos rfl, hkey, if_pos rfl]
      cases hst : store r2.key with
      | none =>
        simp [hst, not_le_of_lt hlt]
      | some o =>
        by_cases ho : o.update_time ≤ r2.update_time
        · simp [hst, ho, not_le_of_lt hlt]
        · have hno : ¬ o.update_time ≤ r1.update_time := fun hc =>
            ho (le_trans hc (le_of_lt hlt))
          simp [hst, ho, hno]
    · have hk2 : k ≠ r2.key := hkey ▸ hk
      simp only [upsertRow, if_neg hk, if_neg hk2]

/-- Witness for C1 at concrete rows: a stored row with freshness 5, an
incoming row with freshness 7 (replaced), and the t2-then-t1 no-op at
freshness 7 then 6. -/
theorem upsert_freshness_conditional_witness :
    c1Store (c1Row 7).key = some (c1Row 5) ∧
    (c1Row 6).key = (c1Row 7).key ∧
    (6 : PyDateTime) < 7 ∧
    RealtimeWriter.upsertRow (RealtimeWriter.upsertRow c1Store (c1Row 7))
        (c1Row 6) =
      RealtimeWriter.upsertRow c1Store (c1Row 7) :=
  ⟨rfl, rfl, by decide,
    (upsert_freshness_conditional c1Store (c1Row 7) (c1Row 5) rfl
      (c1Row 6) (c1Row 7) rfl (by decide)).2.2⟩

open MTARealtimeParser in
/-- C2: after `fix_feed_mesesage`, every retained trip update has a present
route_id; every retained stop time event of a retained update has a stop id
that passes the static stop-table existence check and at least one of
arrival/departure present; the retained updates are exactly the original
updates with a route_id, each carrying exactly its original stop events
that pass both checks, in their original relative order (order preservation
is witnessed by the filter characterization and the sublist fact). -/
theorem fix_feed_mesesage_invariants (stop_exists : String → Bool)
    (m : Gtfs.FeedMessage) :
    (fix_feed_mesesage stop_exists m).trip_updates =
      (m.trip_updates.filter (fun u => is_valid_trip_descriptor u.trip)).map
        (fun u => { u with
          stop_time_updates :=
            u.stop_time_updates.filter
              (is_valid_stop_time_update stop_exists) }) ∧
    (∀ u ∈ (fix_feed_mesesage stop_exists m).trip_updates,
        u.trip.route_id.isSome = true) ∧
    (∀ u ∈ (fix_feed_mesesage stop_exists m).trip_updates,
        ∀ s ∈ u.stop_time_updates,
          stop_exists s.stop_id = true ∧
            (s.arrival.isSome = true ∨ s.departure.isSome = true)) ∧
    (∀ u ∈ m.trip_updates, ∀ v, fix_trip_update stop_exists u = some v →
        v.stop_time_updates.Sublist u.stop_time_updates) := by
  have hmain : (fix_feed_mesesage stop_exists m).trip_updates =
      (m.trip_updates.filter (fun u => is_valid_trip_descriptor u.trip)).map
        (fun u => { u with
          stop_time_updates :=
            u.stop_time_updates.filter
              (is_valid_stop_time_update stop_exists) }) := by
    simp [fix_feed_mesesage, fix_trip_replacements, fix_trip_updates_eq]
  refine ⟨hmain, ?_, ?_, ?_⟩
  · intro u hu
    rw [hmain] at hu
    rcases List.mem_map.mp hu with ⟨u0, hu0, rfl⟩
    have := List.of_mem_filter hu0
    simpa [is_valid_trip_descriptor] using this
  · intro u hu s hs
    rw [hmain] at hu
    rcases List.mem_map.mp hu with ⟨u0, hu0, rfl⟩
    have hvalid := List.of_mem_filter hs
    by_cases hex : stop_exists s.stop_id
    · refine ⟨hex, ?_⟩
      by_cases ha : s.arrival = none
      · by_cases hd : s.departure = none
        · simp [is_valid_stop_time_update, hex, ha, hd] at hvalid
        · right; simpa [Option.isSome_iff_ne_none] using hd
      · left; simpa [Option.isSome_iff_ne_none] using ha
    · simp [is_valid_stop_time_update, hex] at hvalid
  · intro u _ v hv
    by_cases h : is_valid_trip_descriptor u.trip
    · simp only [fix_trip_update, h, not_true_eq_false, if_neg] at hv
      cases hv
      simp only [afilter_eq_filter]
      exact List.filter_sublist (l := u.stop_time_updates)
        (p := is_valid_stop_time_update stop_exists)
    · simp [fix_trip_update, h] at hv

/-- Witness for C2 at a concrete message: the update without a route is
dropped, the invalid stop events are dropped, and the retained event list
is a sublist of the original. -/
theorem fix_feed_mesesage_invariants_witness :
    ((MTARealtimeParser.fix_feed_mesesage c2StopExists c2Msg).trip_updates =
      [ { trip := { trip_id := "a", route_id := some "1", start_date := 737971 },
          stop_time_updates :=
            [ { stop_id := "101S", arrival := some 1050, departure := none } ],
          timestamp := some 999 } ]) ∧
    ∀ u ∈ (MTARealtimeParser.fix_feed_mesesage c2StopExists c2Msg).trip_updates,
      u.trip.route_id.isSome = true := by
  refine ⟨by decide, ?_⟩
  intro u hu
  exact (fix_feed_mesesage_invariants c2StopExists c2Msg).2.1 u hu

open MTARealtimeParser in
/-- C5: the replacement-window backfill of `_fix_trip_replacements`, on a
message whose replacement map has pairwise-distinct keys (the Python dict
invariant): an entry for route "6" yields a derived "6X" entry with the
same end time when "6X" has no entry of its own, likewise "7" yields "7X";
an entry for "S" yields "GS" exactly as above but only when the feed id is
"1" (for any other feed the "GS" lookup is untouched); and no derived entry
ever overwrites an entry already present in the map — every explicit
binding survives unchanged. -/
theorem fix_trip_replacements_backfill (m : Gtfs.FeedMessage)
    (hnd : (m.trip_replacements.map Prod.fst).Nodup) :
    (∀ T, PyDict.lookup m.trip_replacements "6" = some T →
        PyDict.lookup m.trip_replacements "6X" = none →
        PyDict.lookup (fix_trip_replacements m).trip_replacements "6X" =
          some T) ∧
    (∀ T, PyDict.lookup m.trip_replacements "7" = some T →
        PyDict.lookup m.trip_replacements "7X" = none →
        PyDict.lookup (fix_trip_replacements m).trip_replacements "7X" =
          some T) ∧
    (∀ T, m.feed_id = "1" →
        PyDict.lookup m.trip_replacements "S" = some T →
        PyDict.lookup m.trip_replacements "GS" = none →
        PyDict.lookup (fix_trip_replacements m).trip_replacements "GS" =
          some T) ∧
    (m.feed_id ≠ "1" →
        PyDict.lookup (fix_trip_replacements m).trip_replacements "GS" =
          PyDict.lookup m.trip_replacements "GS") ∧
    (∀ k v, PyDict.lookup m.trip_replacements k = some v →
        PyDict.lookup (fix_trip_replacements m).trip_replacements k =
          some v) := by
  refine ⟨?_, ?_, ?_, ?_, ?_⟩
  · intro T h6 h6X
    exact fold_repl_6X m.trip_replacements m.trip_replacements h6X
      (PyDict.lookup_mem h6)
      (fun T' h' => nodup_keys_value_eq hnd h' (PyDict.lookup_mem h6))
  · intro T h7 h7X
    exact fold_repl_7X m.trip_replacements m.trip_replacements h7X
      (PyDict.lookup_mem h7)
      (fun T' h' => nodup_keys_value_eq hnd h' (PyDict.lookup_mem h7))
  · intro T hf hS hGS
    show PyDict.lookup
      (m.trip_replacements.foldl (repl_step m.feed_id) m.trip_replacements)
      "GS" = some T
    rw [hf]
    exact fold_repl_GS m.trip_replacements m.trip_replacements hGS
      (PyDict.lookup_mem hS)
      (fun T' h' => nodup_keys_value_eq hnd h' (PyDict.lookup_mem hS))
  · intro hf
    exact fold_repl_GS_other_feed hf m.trip_replacements m.trip_replacements
  · intro k v h
    exact fold_repl_preserves_some m.trip_replacements m.trip_replacements h

/-- Witness for C5 at a concrete message: the explicit "6X" entry survives
the backfill from "6", and "S" backfills "GS" in feed "1". -/
theorem fix_trip_replacements_backfill_witness :
    PyDict.lookup
        (MTARealtimeParser.fix_trip_replacements c5Msg).trip_replacements
        "6X" = some 42 ∧
    PyDict.lookup
        (MTARealtimeParser.fix_trip_replacements c5Msg).trip_replacements
        "GS" = some 50 :=
  ⟨(fix_trip_replacements_backfill c5Msg (by decide)).2.2.2.2 "6X" 42 rfl,
   (fix_trip_replacements_backfill c5Msg (by decide)).2.2.1 50 rfl rfl rfl⟩

open RealtimeWriter in
/-- C4: for a trip update whose descriptor carries a route (the only case
that reaches the candidate-building code), every candidate row carries the
message's declared timestamp as freshness and shares system, route, date
and trip id; two candidate rows have the same join ("||") dedup key exactly
when they have the same full conflict key (system, route_id, stop_id,
start_date, trip_id) — so the dict collapse before the single upsert
collapses candidates exactly when they share the full key; the issued rows
are candidate rows, cover every candidate's full key, and are pairwise
distinct on the full key. -/
theorem write_dedup_exactly_on_key
    (sys : Gtfs.TransitSystem) (update : Gtfs.TripUpdate)
    (message : Gtfs.FeedMessage) (trip : Option TripRow)
    (stop_exists : String → Bool) (ρ : String)
    (hρ : update.trip.route_id = some ρ) :
    (∀ kv ∈ candidate_rows sys update message trip stop_exists,
      kv.2.system = sys.value ∧ kv.2.route_id = ρ ∧
      kv.2.start_date = update.trip.start_date ∧
      kv.2.trip_id = trip_id_of trip update ∧
      kv.2.update_time = message.timestamp) ∧
    (∀ kv1 ∈ candidate_rows sys update message trip stop_exists,
      ∀ kv2 ∈ candidate_rows sys update message trip stop_exists,
        (kv1.1 = kv2.1 ↔ kv1.2.key = kv2.2.key)) ∧
    (∀ r ∈ issued_rows sys update message trip stop_exists,
      ∃ kv ∈ candidate_rows sys update message trip stop_exists, kv.2 = r) ∧
    (∀ kv ∈ candidate_rows sys update message trip stop_exists,
      ∃ r ∈ issued_rows sys update message trip stop_exists,
        r.key = kv.2.key) ∧
    (issued_rows sys update message trip stop_exists).Pairwise
      (fun r1 r2 => r1.key ≠ r2.key) := by
  have hshape : ∀ kv ∈ candidate_rows sys update message trip stop_exists,
      ∃ stu : Gtfs.StopTimeUpdate,
        kv = (insert_key sys.value ρ stu.stop_id update.trip.start_date,
          { system := sys.value, route_id := ρ, stop_id := stu.stop_id,
            start_date := update.trip.start_date,
            trip_id := trip_id_of trip update, timestamp := update.timestamp,
            arrival := stu.arrival, departure := stu.departure,
            update_time := message.timestamp }) := by
    intro kv hkv
    rcases List.mem_filterMap.mp hkv with ⟨stu, _, hget⟩
    simp only [get_insert_values] at hget
    split_ifs at hget with h1 h2
    rw [hρ] at hget
    refine ⟨stu, ?_⟩
    have hinj := Option.some.inj hget
    simpa using hinj.symm
  have hkeyiff : ∀ kv1 ∈ candidate_rows sys update message trip stop_exists,
      ∀ kv2 ∈ candidate_rows sys update message trip stop_exists,
        (kv1.1 = kv2.1 ↔ kv1.2.key = kv2.2.key) := by
    intro kv1 h1 kv2 h2
    rcases hshape kv1 h1 with ⟨s1, rfl⟩
    rcases hshape kv2 h2 with ⟨s2, rfl⟩
    constructor
    · intro h
      have hstop : s1.stop_id = s2.stop_id :=
        string_sandwich_inj (sys.value ++ "||" ++ ρ ++ "||") "||"
          (pyDateStr update.trip.start_date) s1.stop_id s2.stop_id
          (by simpa [insert_key] using h)
      simp [RTRow.key, hstop]
    · intro h
      have hstop : s1.stop_id = s2.stop_id := by
        simpa [RTRow.key, Prod.ext_iff] using h
      simp [insert_key, hstop]
  refine ⟨?_, hkeyiff, ?_, ?_, ?_⟩
  · intro kv hkv
    rcases hshape kv hkv with ⟨stu, rfl⟩
    exact ⟨rfl, rfl, rfl, rfl, rfl⟩
  · intro r hr
    rcases List.mem_map.mp hr with ⟨kv, hkv, hsnd⟩
    exact ⟨kv, PyDict.ofList_mem_sub hkv, hsnd⟩
  · intro kv hkv
    have hkey := PyDict.ofList_keys_cover hkv
    rcases List.mem_map.mp hkey with ⟨kv2, hkv2, hfst⟩
    refine ⟨kv2.2, List.mem_map_of_mem Prod.snd hkv2, ?_⟩
    exact ((hkeyiff kv2 (PyDict.ofList_mem_sub hkv2) kv hkv).mp hfst)
  · have hnodup := PyDict.ofList_nodup_keys
      (candidate_rows sys update message trip stop_exists)
    have hpw1 : (PyDict.ofList
        (candidate_rows sys update message trip stop_exists)).Pairwise
        (fun p q => p.1 ≠ q.1) := List.pairwise_map.mp hnodup
    have hpw2 : (PyDict.ofList
        (candidate_rows sys update message trip stop_exists)).Pairwise
        (fun p q => p.2.key ≠ q.2.key) := by
      refine List.Pairwise.imp_of_mem ?_ hpw1
      intro p q hp hq hne hkeq
      exact hne ((hkeyiff p (PyDict.ofList_mem_sub hp) q
        (PyDict.ofList_mem_sub hq)).mpr hkeq)
    unfold issued_rows
    rw [List.pairwise_map]
    exact hpw2

/-- Witness for C4 at a concrete trip update: the two events at stop "101S"
collapse to one issued row, the "102S" event keeps its own row, and the
issued rows have pairwise-distinct full keys. -/
theorem write_dedup_exactly_on_key_witness :
    c4Update.trip.route_id = some "1" ∧
    (RealtimeWriter.issued_rows .NYC_MTA c4Update c4Msg none
        c4StopExists).length = 2 ∧
    (RealtimeWriter.issued_rows .NYC_MTA c4Update c4Msg none
        c4StopExists).Pairwise (fun r1 r2 => r1.key ≠ r2.key) :=
  ⟨rfl, by decide,
    (write_dedup_exactly_on_key .NYC_MTA c4Update c4Msg none c4StopExists "1"
      rfl).2.2.2.2⟩

/-- C6: parsing "AFA19GEN-1037-Sunday-00_010600_1..S03R" succeeds with
serviceDay SUNDAY, route "1", direction "S" and path identifier "03R";
`short_trip_ids` on that id returns exactly ["010600_1..S03R",
"010600_1..S"] in that order (the key with the path-identifier suffix
first); and any id the grammar does not match makes `parse_trip_id` raise
(modelled as `Except.error`). -/
theorem parse_trip_id_sunday_example :
    Nyc.parse_trip_id c6Id = .ok c6Tid ∧
    Nyc.short_trip_ids c6Id = .ok ["010600_1..S03R", "010600_1..S"] ∧
    (∀ s, Nyc.matchTripId s.data = none →
      ∃ e, Nyc.parse_trip_id s = .error e) := by
  refine ⟨by rfl, by rfl, ?_⟩
  intro s h
  unfold Nyc.parse_trip_id
  rw [h]
  exact ⟨_, rfl⟩

/-- Witness for C6: the empty string does not match the grammar, and
parsing it yields an error. -/
theorem parse_trip_id_sunday_example_witness :
    Nyc.matchTripId "".data = none ∧
    ∃ e, Nyc.parse_trip_id "" = .error e :=
  ⟨rfl, parse_trip_id_sunday_example.2.2 "" rfl⟩

/-- C10: for any trip id the grammar accepts with an empty path identifier,
the negative slice `trip_path[: -0]` is `trip_path[:0]`, the empty string,
so `short_trip_ids` returns origin time + "_" + trip path and the
degenerate key origin time + "_" (the whole trip path removed), not two
equal keys. -/
theorem short_trip_ids_empty_path_id (s : String) (t : Nyc.TripID)
    (hok : Nyc.parse_trip_id s = .ok t) (hpid : t.path_identifier = "") :
    Nyc.short_trip_ids s =
      .ok [t.origin_time ++ "_" ++ t.trip_path, t.origin_time ++ "_"] := by
  unfold Nyc.short_trip_ids
  rw [hok]
  simp only [Except.map, hpid]
  rw [show Nyc.pySliceToNeg t.trip_path ("" : String).length = "" from rfl]
  rw [String.append_empty]

/-- Witness for C10 at a concrete id with empty path identifier. -/
theorem short_trip_ids_empty_path_id_witness :
    Nyc.parse_trip_id c10Id = .ok c10Tid ∧
    c10Tid.path_identifier = "" ∧
    Nyc.short_trip_ids c10Id =
      .ok [c10Tid.origin_time ++ "_" ++ c10Tid.trip_path,
        c10Tid.origin_time ++ "_"] :=
  ⟨by rfl, rfl, short_trip_ids_empty_path_id c10Id c10Tid (by rfl) rfl⟩

open MTARealtimeParser in
/-- C7: when the direct trip-id lookup misses, the matcher derives the
service day solely from the calendar weekday of the descriptor's start
date (Monday-Friday WEEKDAY, Saturday SATURDAY, Sunday SUNDAY; two dates
with the same weekday give the same service day) and queries the persisted
(system, alternateId, serviceDay) mapping: zero matching rows resolve to
none, exactly one row is resolved recursively through the direct trip-id
lookup, and two or more rows resolve to none — never a guess, and never an
exception (the resolver is a total function into Option). -/
theorem descriptor_resolution_fallback (trips : List TripRow)
    (mta : List MTARealtimeParser.MtaTripIdRow) (d : Gtfs.TripDescriptor)
    (hdirect : get_trip_row_from_id trips .NYC_MTA d.trip_id = none) :
    (pyWeekday d.start_date < 5 →
      service_day_of_date d.start_date = .WEEKDAY) ∧
    (pyWeekday d.start_date = 5 →
      service_day_of_date d.start_date = .SATURDAY) ∧
    (pyWeekday d.start_date = 6 →
      service_day_of_date d.start_date = .SUNDAY) ∧
    (∀ d2 : PyDate, pyWeekday d2 = pyWeekday d.start_date →
      service_day_of_date d2 = service_day_of_date d.start_date) ∧
    (mta_trip_id_matches mta .NYC_MTA d.trip_id
        (service_day_of_date d.start_date) = [] →
      get_trip_row_from_descriptor trips mta .NYC_MTA d = none) ∧
    (∀ r, mta_trip_id_matches mta .NYC_MTA d.trip_id
        (service_day_of_date d.start_date) = [r] →
      get_trip_row_from_descriptor trips mta .NYC_MTA d =
        get_trip_row_from_id trips .NYC_MTA r.trip_id) ∧
    (∀ r1 r2 rest, mta_trip_id_matches mta .NYC_MTA d.trip_id
        (service_day_of_date d.start_date) = r1 :: r2 :: rest →
      get_trip_row_from_descriptor trips mta .NYC_MTA d = none) := by
  refine ⟨?_, ?_, ?_, ?_, ?_, ?_, ?_⟩
  · intro h; simp [service_day_of_date, h]
  · intro h; simp [service_day_of_date, h]
  · intro h; simp [service_day_of_date, h]
  · intro d2 h; simp [service_day_of_date, h]
  · intro h
    simp only [get_trip_row_from_descriptor, hdirect, h]
  · intro r h
    simp only [get_trip_row_from_descriptor, hdirect, h]
  · intro r1 r2 rest h
    simp only [get_trip_row_from_descriptor, hdirect, h]

/-- Witness for C7: an empty trips table (so the direct lookup misses) and
a mapping with two rows for the descriptor's (alternate id, SUNDAY) — the
ambiguity resolves to none. -/
theorem descriptor_resolution_fallback_witness :
    MTARealtimeParser.get_trip_row_from_id [] .NYC_MTA "010600_1..S" =
      none ∧
    MTARealtimeParser.get_trip_row_from_descriptor [] c7Mta .NYC_MTA
      c7Desc = none :=
  ⟨rfl,
    (descriptor_resolution_fallback [] c7Mta c7Desc rfl).2.2.2.2.2.2
      { system := "nyc_mta", alternate_trip_id := "010600_1..S",
        service_day := .SUNDAY, trip_id := "T1" }
      { system := "nyc_mta", alternate_trip_id := "010600_1..S",
        service_day := .SUNDAY, trip_id := "T2" } [] (by rfl)⟩

namespace BatchProcess

theorem digitChar_isDigit {d : Nat} (h : d < 10) :
    (Nat.digitChar d).isDigit = true := by
  interval_cases d <;> decide

theorem toNat_digitChar {d : Nat} (h : d < 10) :
    (Nat.digitChar d).toNat - '0'.toNat = d := by
  interval_cases d <;> decide

theorem foldl_decimal (l : List Nat) (h : ∀ d ∈ l, d < 10) :
    ((l.map Nat.digitChar).reverse).foldl
      (fun acc c => acc * 10 + (c.toNat - '0'.toNat)) 0 =
    Nat.ofDigits 10 l := by
  induction l with
  | nil => rfl
  | cons x xs ih =>
    have hx : x < 10 := h x (List.mem_cons_self x xs)
    have hxs : ∀ d ∈ xs, d < 10 := fun d hd => h d (List.mem_cons_of_mem x hd)
    rw [List.map_cons, List.reverse_cons, List.foldl_append, ih hxs]
    simp only [List.foldl_cons, List.foldl_nil, toNat_digitChar hx,
      Nat.ofDigits_cons]
    ring

theorem fromisoformat_isoformat (t : PyDateTime) :
    fromisoformat (isoformat t) = some t := by
  by_cases ht : t = 0
  · subst ht; rfl
  · have hne : Nat.digits 10 t ≠ [] := by
      simpa [Nat.digits_ne_nil_iff_ne_zero] using ht
    have hlt : ∀ d ∈ Nat.digits 10 t, d < 10 := fun d hd =>
      Nat.digits_lt_base (by norm_num) hd
    have hdata : (isoformat t).data =
        ((Nat.digits 10 t).map Nat.digitChar).reverse := by
      simp [isoformat, ht]
    have hnonempty : (isoformat t).data ≠ [] := by
      rw [hdata]
      simp only [ne_eq, List.reverse_eq_nil_iff, List.map_eq_nil_iff]
      exact hne
    have hdigits : (isoformat t).data.all Char.isDigit = true := by
      rw [hdata, List.all_eq_true]
      intro c hc
      rw [List.mem_reverse] at hc
      rcases List.mem_map.mp hc with ⟨d, hd, rfl⟩
      exact digitChar_isDigit (hlt d hd)
    unfold fromisoformat
    rw [if_pos ⟨hnonempty, hdigits⟩, hdata, foldl_decimal _ hlt,
      Nat.ofDigits_digits]

theorem deserialize_serialize (v : PyVal) :
    deserialize_value (serialize_value v) = .ok v := by
  cases v with
  | datetime t =>
    simp [serialize_value, deserialize_value, PyDict.lookup,
      fromisoformat_isoformat t]
  | _ => rfl

theorem loads_fields_dumps (l : List (String × PyVal)) :
    loads_fields (l.map (fun kv => (kv.1, serialize_value kv.2))) =
      .ok l := by
  induction l with
  | nil => rfl
  | cons kv rest ih =>
    obtain ⟨k, v⟩ := kv
    simp only [List.map_cons, loads_fields, deserialize_serialize, ih]
    rfl

end BatchProcess

/-- C8: deserializing the serialized form of a checkpoint whose fields hold
values of the supported types restores it exactly —
`Checkpoint.loads (cp.dumps) = ok cp` for every checkpoint, field names,
order and values included; a datetime field is wrapped as
{"type": "datetime", "value": isoformat} during serialization and that
wrapper deserializes back to the equal instant (a dict field is likewise
wrapped with type tag "dict" by `serialize_value`). -/
theorem checkpoint_loads_dumps (cp : BatchProcess.Checkpoint) :
    BatchProcess.Checkpoint.loads cp.dumps = .ok cp ∧
    (∀ t, BatchProcess.serialize_value (.datetime t) =
      .obj [("type", .str "datetime"),
            ("value", .str (BatchProcess.isoformat t))]) ∧
    (∀ t, BatchProcess.deserialize_value
        (.obj [("type", .str "datetime"),
               ("value", .str (BatchProcess.isoformat t))]) =
      .ok (.datetime t)) := by
  refine ⟨?_, fun t => rfl, ?_⟩
  · obtain ⟨fields⟩ := cp
    simp [BatchProcess.Checkpoint.loads, BatchProcess.Checkpoint.dumps,
      BatchProcess.loads_fields_dumps, Except.map]
  · intro t
    simp [BatchProcess.deserialize_value, PyDict.lookup,
      BatchProcess.fromisoformat_isoformat t]

namespace BatchProcess

theorem keyLt_trans {a b c : PyDateTime × String} (h1 : keyLt a b)
    (h2 : keyLt b c) : keyLt a c := by
  rcases h1 with h1 | ⟨h1e, h1s⟩ <;> rcases h2 with h2 | ⟨h2e, h2s⟩
  · exact Or.inl (lt_trans h1 h2)
  · exact Or.inl (h2e ▸ h1)
  · exact Or.inl (h1e ▸ h2)
  · exact Or.inr ⟨h1e.trans h2e, lt_trans h1s h2s⟩

theorem keyLt_irrefl (a : PyDateTime × String) : ¬ keyLt a a := by
  rintro (h | ⟨_, h⟩) <;> exact absurd h (lt_irrefl _)

theorem keyLt_asymm {a b : PyDateTime × String} (h : keyLt a b) :
    ¬ keyLt b a :=
  fun h2 => keyLt_irrefl a (keyLt_trans h h2)

theorem keyLt_trichotomy (a b : PyDateTime × String) :
    keyLt a b ∨ a = b ∨ keyLt b a := by
  rcases Nat.lt_trichotomy a.1 b.1 with h | h | h
  · exact Or.inl (Or.inl h)
  · rcases lt_trichotomy a.2 b.2 with hs | hs | hs
    · exact Or.inl (Or.inr ⟨h, hs⟩)
    · exact Or.inr (Or.inl (Prod.ext h hs))
    · exact Or.inr (Or.inr (Or.inr ⟨h.symm, hs⟩))
  · exact Or.inr (Or.inr (Or.inl h))

theorem keyLe_iff {a b : PyDateTime × String} :
    keyLe a b = true ↔ ¬ keyLt b a := by
  simp [keyLe]

theorem keyLe_trans {a b c : PyDateTime × String} (h1 : keyLe a b = true)
    (h2 : keyLe b c = true) : keyLe a c = true := by
  rw [keyLe_iff] at *
  intro hca
  rcases keyLt_trichotomy a b with h | h | h
  · exact h2 (keyLt_trans hca h)
  · exact h2 (h ▸ hca)
  · exact h1 h

theorem keyLe_of_not_keyLe {a b : PyDateTime × String}
    (h : ¬ keyLe a b = true) : keyLe b a = true := by
  rw [keyLe_iff] at *
  push_neg at h
  exact keyLt_asymm h

theorem mem_insertSorted {x z : RawRow} :
    ∀ {l : List RawRow}, z ∈ insertSorted x l → z = x ∨ z ∈ l := by
  intro l
  induction l with
  | nil => intro h; left; simpa [insertSorted] using h
  | cons y ys ih =>
    intro h
    unfold insertSorted at h
    split at h
    · rcases List.mem_cons.mp h with h | h
      · exact Or.inl h
      · exact Or.inr h
    · rcases List.mem_cons.mp h with h | h
      · exact Or.inr (h ▸ List.mem_cons_self y ys)
      · rcases ih h with h | h
        · exact Or.inl h
        · exact Or.inr (List.mem_cons_of_mem y h)

theorem insertSorted_perm (x : RawRow) :
    ∀ (l : List RawRow), (insertSorted x l).Perm (x :: l) := by
  intro l
  induction l with
  | nil => exact List.Perm.refl _
  | cons y ys ih =>
    unfold insertSorted
    split
    · exact List.Perm.refl _
    · exact (List.Perm.cons y ih).trans (List.Perm.swap x y ys)

theorem pairwise_insertSorted {x : RawRow} :
    ∀ {l : List RawRow},
      l.Pairwise (fun a b => keyLe (rowKey a) (rowKey b) = true) →
      (insertSorted x l).Pairwise
        (fun a b => keyLe (rowKey a) (rowKey b) = true) := by
  intro l
  induction l with
  | nil => intro _; simp [insertSorted]
  | cons y ys ih =>
    intro h
    rcases List.pairwise_cons.mp h with ⟨hy, hys⟩
    unfold insertSorted
    split
    · rename_i hxy
      refine List.pairwise_cons.mpr ⟨?_, h⟩
      intro z hz
      rcases List.mem_cons.mp hz with rfl | hz
      · exact hxy
      · exact keyLe_trans hxy (hy z hz)
    · rename_i hxy
      refine List.pairwise_cons.mpr ⟨?_, ih hys⟩
      intro z hz
      rcases mem_insertSorted hz with rfl | hz
      · exact keyLe_of_not_keyLe hxy
      · exact hy z hz

theorem sortByKey_perm (l : List RawRow) : (sortByKey l).Perm l := by
  induction l with
  | nil => exact List.Perm.refl _
  | cons x xs ih =>
    exact (insertSorted_perm x (sortByKey xs)).trans (List.Perm.cons x ih)

theorem pairwise_sortByKey (l : List RawRow) :
    (sortByKey l).Pairwise (fun a b => keyLe (rowKey a) (rowKey b) = true) := by
  induction l with
  | nil => simp [sortByKey]
  | cons x xs ih => exact pairwise_insertSorted ih

theorem mem_of_getLast?_eq_some {l : List RawRow} {x : RawRow}
    (h : l.getLast? = some x) : x ∈ l := by
  have hx : x ∈ l.getLast? := Option.mem_def.mpr h
  rcases List.mem_getLast?_eq_getLast hx with ⟨hne, hl⟩
  rw [hl]
  exact List.getLast_mem hne

theorem pairwise_keyLt_of_sorted_nodup {l : List RawRow}
    (hs : l.Pairwise (fun a b => keyLe (rowKey a) (rowKey b) = true))
    (hnd : (l.map rowKey).Nodup) :
    l.Pairwise (fun a b => keyLt (rowKey a) (rowKey b)) := by
  have hne : l.Pairwise (fun a b => rowKey a ≠ rowKey b) :=
    List.pairwise_map.mp hnd
  have hand := hs.and hne
  refine hand.imp ?_
  rintro a b ⟨hle, hneq⟩
  rcases keyLt_trichotomy (rowKey a) (rowKey b) with h | h | h
  · exact h
  · exact absurd h hneq
  · exact absurd h (keyLe_iff.mp hle)

theorem mem_get_query {table : List RawRow} {wh : RawRow → Bool}
    {C : PyDateTime × String} {limit : Option Nat} {r : RawRow}
    (h : r ∈ get_query table wh (some C) limit) :
    r ∈ table ∧ wh r = true ∧ keyLt C (rowKey r) := by
  have hsorted : r ∈ sortByKey (table.filter fun r => wh r &&
      decide (keyLt C (rowKey r))) := by
    unfold get_query at h
    cases limit with
    | none => exact h
    | some n => exact List.mem_of_mem_take h
  have hfilter := (sortByKey_perm _).mem_iff.mp hsorted
  have hmem := List.mem_of_mem_filter hfilter
  have hcond := List.of_mem_filter hfilter
  simp only [Bool.and_eq_true, decide_eq_true_eq] at hcond
  exact ⟨hmem, hcond.1, hcond.2⟩

theorem get_query_pairwise {table : List RawRow} {wh : RawRow → Bool}
    {C : Option (PyDateTime × String)} {limit : Option Nat}
    (hnd : (table.map rowKey).Nodup) :
    (get_query table wh C limit).Pairwise
      (fun a b => keyLt (rowKey a) (rowKey b)) := by
  set rows := table.filter fun r => wh r &&
    (match C with
     | none => true
     | some c => decide (keyLt c (rowKey r))) with hrows
  have hsub : rows.Sublist table := List.filter_sublist table
  have hnd2 : (rows.map rowKey).Nodup :=
    List.Nodup.sublist (List.Sublist.map rowKey hsub) hnd
  have hnd3 : ((sortByKey rows).map rowKey).Nodup :=
    (List.Perm.nodup_iff (List.Perm.map rowKey (sortByKey_perm rows))).mpr hnd2
  have hpw := pairwise_keyLt_of_sorted_nodup (pairwise_sortByKey rows) hnd3
  unfold get_query
  cases limit with
  | none => exact hpw
  | some n => exact hpw.sublist (List.take_sublist n _)

theorem fetchPagesGo_flatten (b : Nat) :
    ∀ (fuel : Nat) (l : List RawRow), l.length ≤ fuel →
      (fetchPagesGo b fuel l).flatten = l := by
  intro fuel
  induction fuel with
  | zero =>
    intro l hl
    cases l with
    | nil => rfl
    | cons x xs => simp at hl
  | succ fuel ih =>
    intro l hl
    cases l with
    | nil => rfl
    | cons x xs =>
      have hdrop : (xs.drop (b - 1)).length ≤ fuel := by
        simp only [List.length_drop]
        simp only [List.length_cons] at hl
        omega
      rw [fetchPagesGo, List.flatten_cons, ih (xs.drop (b - 1)) hdrop]
      simp [List.take_append_drop]

theorem fetchPages_flatten (b : Nat) (l : List RawRow) :
    (fetchPages b l).flatten = l :=
  fetchPagesGo_flatten b l.length l (le_refl _)

theorem fetchPagesGo_ne_nil (b : Nat) :
    ∀ (fuel : Nat) (l : List RawRow), ∀ p ∈ fetchPagesGo b fuel l,
      p ≠ [] := by
  intro fuel
  induction fuel with
  | zero =>
    intro l p hp
    cases l with
    | nil => cases hp
    | cons x xs => cases hp
  | succ fuel ih =>
    intro l p hp
    cases l with
    | nil => cases hp
    | cons x xs =>
      rw [fetchPagesGo] at hp
      rcases List.mem_cons.mp hp with rfl | hp
      · simp
      · exact ih (xs.drop (b - 1)) p hp

theorem fetchPages_ne_nil (b : Nat) (l : List RawRow) :
    ∀ p ∈ fetchPages b l, p ≠ [] :=
  fetchPagesGo_ne_nil b l.length l

theorem pairwise_cross_of_flatten {R : RawRow → RawRow → Prop} :
    ∀ {L : List (List RawRow)}, (L.flatten).Pairwise R →
      L.Pairwise (fun p q => ∀ x ∈ p, ∀ y ∈ q, R x y) := by
  intro L
  induction L with
  | nil => intro _; exact List.Pairwise.nil
  | cons p rest ih =>
    intro h
    rw [List.flatten_cons, List.pairwise_append] at h
    refine List.pairwise_cons.mpr ⟨?_, ih h.2.1⟩
    intro q hq x hx y hy
    exact h.2.2 x hx y (List.mem_flatten.mpr ⟨q, hq, hy⟩)

theorem pairwise_filterMap_of_pairwise {β : Type}
    {R : List RawRow → List RawRow → Prop} {S : β → β → Prop}
    (f : List RawRow → Option β)
    (H : ∀ a b x y, R a b → f a = some x → f b = some y → S x y) :
    ∀ {L : List (List RawRow)}, L.Pairwise R → (L.filterMap f).Pairwise S := by
  intro L
  induction L with
  | nil => intro _; exact List.Pairwise.nil
  | cons p rest ih =>
    intro h
    rcases List.pairwise_cons.mp h with ⟨hp, hrest⟩
    rw [List.filterMap_cons]
    cases hf : f p with
    | none => exact ih hrest
    | some x =>
      refine List.pairwise_cons.mpr ⟨?_, ih hrest⟩
      intro y hy
      rcases List.mem_filterMap.mp hy with ⟨q, hq, hfq⟩
      exact H p q x y (hp q hq) hf hfq

theorem checkpoints_pairwise {pages : List (List RawRow)}
    (h : (pages.flatten).Pairwise (fun a b => keyLt (rowKey a) (rowKey b))) :
    (checkpoints_of pages).Pairwise keyLt := by
  have hcross := pairwise_cross_of_flatten h
  refine pairwise_filterMap_of_pairwise _ ?_ hcross
  intro a b x y hab ha hb
  rcases Option.map_eq_some'.mp ha with ⟨ra, hra, rfl⟩
  rcases Option.map_eq_some'.mp hb with ⟨rb, hrb, rfl⟩
  exact hab ra (mem_of_getLast?_eq_some hra) rb (mem_of_getLast?_eq_some hrb)

theorem run_trace_not_ckpt_head :
    ∀ (pages : List (List RawRow)) (c : PyDateTime × String) (post : List Ev),
      run_trace pages = Ev.ckpt c :: post → False := by
  intro pages
  induction pages with
  | nil => intro c post h; simp [run_trace] at h
  | cons p rest ih =>
    intro c post h
    cases p with
    | nil =>
      rw [run_trace, List.flatMap_cons] at h
      exact ih c post (by simpa [pageTrace] using h)
    | cons x xs =>
      cases hg : (x :: xs).getLast? with
      | none => simp at hg
      | some r =>
        rw [run_trace, List.flatMap_cons, pageTrace, hg] at h
        simp at h

theorem pageTrace_ckpt_split :
    ∀ (A : List Ev) (k : PyDateTime × String) (pre : List Ev)
      (c : PyDateTime × String) (c2 : List Ev),
      (∀ e ∈ A, ∃ r, e = Ev.proc r) →
      A ++ [Ev.ckpt k] = pre ++ Ev.ckpt c :: c2 →
      pre = A ∧ c = k ∧ c2 = [] := by
  intro A
  induction A with
  | nil =>
    intro k pre c c2 _ h
    cases pre with
    | nil =>
      simp only [List.nil_append] at h
      exact ⟨rfl, (Ev.ckpt.injEq _ _).mp (List.head_eq_of_cons_eq h) |>.symm,
        (List.tail_eq_of_cons_eq h).symm⟩
    | cons e pre2 =>
      exfalso
      have := congrArg List.length h
      simp at this
  | cons a A ih =>
    intro k pre c c2 hall h
    cases pre with
    | nil =>
      simp only [List.nil_append, List.cons_append] at h
      rcases hall a (List.mem_cons_self a A) with ⟨r, rfl⟩
      exact absurd (List.head_eq_of_cons_eq h) (by simp)
    | cons e pre2 =>
      simp only [List.cons_append] at h
      have hhead := List.head_eq_of_cons_eq h
      have htail := List.tail_eq_of_cons_eq h
      rcases ih k pre2 c c2
        (fun e he => hall e (List.mem_cons_of_mem a he)) htail with
        ⟨h1, h2, h3⟩
      exact ⟨by rw [← hhead, h1], h2, h3⟩

theorem run_trace_ckpt :
    ∀ (pages : List (List RawRow)) (pre : List Ev)
      (c : PyDateTime × String) (post : List Ev),
      run_trace pages = pre ++ Ev.ckpt c :: post →
      ∃ p ∈ pages, (∀ r ∈ p, Ev.proc r ∈ pre) ∧
        (p.getLast?).map rowKey = some c := by
  intro pages
  induction pages with
  | nil =>
    intro pre c post h
    exfalso
    have := congrArg List.length h
    simp only [run_trace, List.flatMap_nil, List.length_nil,
      List.length_append, List.length_cons] at this
    omega
  | cons p rest ih =>
    intro pre c post h
    rw [run_trace, List.flatMap_cons] at h
    rcases List.append_eq_append_iff.mp h with ⟨a2, ha1, ha2⟩ | ⟨c2, hc1, hc2⟩
    · obtain ⟨q, hq, hproc, hlast⟩ := ih a2 c post ha2
      refine ⟨q, List.mem_cons_of_mem p hq, ?_, hlast⟩
      intro r hr
      rw [ha1]
      exact List.mem_append_right _ (hproc r hr)
    · cases c2 with
      | nil =>
        exfalso
        simp only [List.append_nil] at hc1 hc2
        exact run_trace_not_ckpt_head rest c post hc2.symm
      | cons e c3 =>
        have he : e = Ev.ckpt c := (List.head_eq_of_cons_eq hc2).symm
        subst he
        cases hp : p.getLast? with
        | none =>
          exfalso
          rw [pageTrace, hp] at hc1
          have := congrArg List.length hc1
          simp only [List.length_nil, List.length_append,
            List.length_cons] at this
          omega
        | some r =>
          rw [pageTrace, hp] at hc1
          rcases pageTrace_ckpt_split (p.map Ev.proc) (rowKey r) pre c c3
            (fun e he => by
              rcases List.mem_map.mp he with ⟨r2, _, rfl⟩
              exact ⟨r2, rfl⟩) hc1 with ⟨h1, h2, _⟩
          refine ⟨p, List.mem_cons_self p rest, ?_, ?_⟩
          · intro r2 hr2
            rw [h1]
            exact List.mem_map_of_mem Ev.proc hr2
          · rw [hp]
            simp [h2]

theorem run_trace_proc_mem {pages : List (List RawRow)} {e : Ev}
    (he : e ∈ run_trace pages) {r : RawRow} (hr : e = Ev.proc r) :
    r ∈ pages.flatten := by
  subst hr
  rcases List.mem_flatMap.mp he with ⟨p, hp, hin⟩
  rw [pageTrace] at hin
  cases hg : p.getLast? with
  | none => rw [hg] at hin; cases hin
  | some q =>
    rw [hg] at hin
    rcases List.mem_append.mp hin with hin | hin
    · rcases List.mem_map.mp hin with ⟨r2, hr2, hpr⟩
      have : r2 = r := by
        injection hpr
      exact List.mem_flatten.mpr ⟨p, hp, this ▸ hr2⟩
    · simp at hin

end BatchProcess

open BatchProcess in
/-- C3: for a batch-replay run over a table whose ordering keys
(update_time, feed_id) are pairwise distinct, resuming from cursor C
fetches only rows with key strictly greater than C (the tuple comparison is
exclusive) and every processed row is a fetched row; the checkpoints the
run persists — the ordering key of each page's last row — strictly
increase over the run; and in the run's trace every persisted checkpoint is
preceded by the processing of every row of its page (a page's checkpoint is
written only after the page fully completes, and an aborted page writes
none). -/
theorem batch_run_checkpoints (table : List BatchProcess.RawRow)
    (wh : BatchProcess.RawRow → Bool) (C : PyDateTime × String)
    (limit : Option Nat)
    (hnd : (table.map BatchProcess.rowKey).Nodup) :
    (∀ r ∈ get_query table wh (some C) limit, keyLt C (rowKey r)) ∧
    (∀ e ∈ run_trace
        (fetchPages BATCH_SIZE (get_query table wh (some C) limit)),
      ∀ r, e = Ev.proc r →
        r ∈ get_query table wh (some C) limit ∧ keyLt C (rowKey r)) ∧
    (checkpoints_of
        (fetchPages BATCH_SIZE (get_query table wh (some C) limit))).Chain'
      keyLt ∧
    (∀ pre c post,
      run_trace (fetchPages BATCH_SIZE (get_query table wh (some C) limit)) =
          pre ++ Ev.ckpt c :: post →
      ∃ p ∈ fetchPages BATCH_SIZE (get_query table wh (some C) limit),
        (∀ r ∈ p, Ev.proc r ∈ pre) ∧ (p.getLast?).map rowKey = some c) := by
  refine ⟨?_, ?_, ?_, ?_⟩
  · intro r hr
    exact (mem_get_query hr).2.2
  · intro e he r hr
    have hmem : r ∈ (fetchPages BATCH_SIZE
        (get_query table wh (some C) limit)).flatten :=
      run_trace_proc_mem he hr
    rw [fetchPages_flatten] at hmem
    exact ⟨hmem, (mem_get_query hmem).2.2⟩
  · have hpw := @get_query_pairwise table wh (some C) limit hnd
    have hflat : ((fetchPages BATCH_SIZE
        (get_query table wh (some C) limit)).flatten).Pairwise
        (fun a b => keyLt (rowKey a) (rowKey b)) := by
      rw [fetchPages_flatten]
      exact hpw
    exact (checkpoints_pairwise hflat).chain'
  · exact run_trace_ckpt _

/-- Witness for C3: a 101-row table yields two pages whose persisted
checkpoints are [(199, "1"), (200, "1")], a strictly increasing chain. -/
theorem batch_run_checkpoints_witness :
    ((c3Table.map BatchProcess.rowKey).Nodup) ∧
    BatchProcess.checkpoints_of
      (BatchProcess.fetchPages BatchProcess.BATCH_SIZE
        (BatchProcess.get_query c3Table (fun _ => true)
          (some (10, "x")) none)) = [(199, "1"), (200, "1")] ∧
    (BatchProcess.checkpoints_of
      (BatchProcess.fetchPages BatchProcess.BATCH_SIZE
        (BatchProcess.get_query c3Table (fun _ => true)
          (some (10, "x")) none))).Chain' BatchProcess.keyLt :=
  ⟨by decide, by decide,
    (batch_run_checkpoints c3Table (fun _ => true) (10, "x") none
      (by decide)).2.2.1⟩

namespace MTARealtimeProcessor

/-- Every write of `process_trip_update` targets one of the two stop-time
tables. -/
theorem process_trip_update_shape (resolve : Gtfs.TripDescriptor → Option TripRow)
    (prev : List (List Gtfs.StopTimeUpdate)) (now : PyDateTime)
    (u : Gtfs.TripUpdate) (msg : Gtfs.FeedMessage) :
    ∀ e ∈ process_trip_update resolve prev now u msg,
      (∃ rows, e = WriteEffect.stop_times2_upsert rows) ∨
      (∃ s r d t tr ids, e = WriteEffect.stop_times2_delete s r d t tr ids) ∨
      (∃ row, e = WriteEffect.raw_stop_times_upsert row) := by
  intro e he
  simp only [process_trip_update] at he
  rcases List.mem_append.mp he with hAB | hC
  · rcases List.mem_append.mp hAB with hA | hB
    · split at hA
      · left; exact ⟨_, List.mem_singleton.mp hA⟩
      · cases hA
    · split at hB
      · split at hB
        · right; left
          exact ⟨_, _, _, _, _, _, List.mem_singleton.mp hB⟩
        · cases hB
      · cases hB
  · right; right; exact ⟨_, List.mem_singleton.mp hC⟩

/-- `process_trip_update` reads the message only through its timestamp. -/
theorem process_trip_update_timestamp_congr
    {resolve : Gtfs.TripDescriptor → Option TripRow}
    {prev : List (List Gtfs.StopTimeUpdate)} {now : PyDateTime}
    {u : Gtfs.TripUpdate} {msg1 msg2 : Gtfs.FeedMessage}
    (h : msg1.timestamp = msg2.timestamp) :
    process_trip_update resolve prev now u msg1 =
      process_trip_update resolve prev now u msg2 := by
  simp only [process_trip_update, h]

end MTARealtimeProcessor

open MTARealtimeProcessor in
/-- C9: the reconciliation-persistence pipeline never persists a vehicle
position — after `process_row` the reconciled message still carries every
decoded vehicle position (available to callers), every write the pipeline
issues is one of the trip-update stop-time writes (an upsert or delete of
stop-time rows), no write is ever a vehicle-position upsert, and the write
list does not depend on the message's vehicle positions at all. -/
theorem vehicle_positions_never_persisted
    (resolve : Gtfs.TripDescriptor → Option TripRow)
    (stop_exists : String → Bool)
    (prevFn : Gtfs.TripUpdate → List (List Gtfs.StopTimeUpdate))
    (now : PyDateTime) (message : Gtfs.FeedMessage) :
    ((process_row resolve stop_exists prevFn now
        message).1.vehicle_positions = message.vehicle_positions) ∧
    (∀ e ∈ (process_row resolve stop_exists prevFn now message).2,
      (∃ rows, e = WriteEffect.stop_times2_upsert rows) ∨
      (∃ s r d t tr ids, e = WriteEffect.stop_times2_delete s r d t tr ids) ∨
      (∃ row, e = WriteEffect.raw_stop_times_upsert row)) ∧
    (∀ e ∈ (process_row resolve stop_exists prevFn now message).2,
      ∀ s t st ts, e ≠ WriteEffect.vehicle_position_upsert s t st ts) ∧
    (∀ vps, (process_row resolve stop_exists prevFn now
        { message with vehicle_positions := vps }).2 =
      (process_row resolve stop_exists prevFn now message).2) := by
  have hshape : ∀ e ∈ (process_row resolve stop_exists prevFn now message).2,
      (∃ rows, e = WriteEffect.stop_times2_upsert rows) ∨
      (∃ s r d t tr ids, e = WriteEffect.stop_times2_delete s r d t tr ids) ∨
      (∃ row, e = WriteEffect.raw_stop_times_upsert row) := by
    intro e he
    rcases List.mem_flatMap.mp he with ⟨u, _, hin⟩
    exact process_trip_update_shape resolve (prevFn u) now u _ e hin
  refine ⟨rfl, hshape, ?_, ?_⟩
  · intro e he s t st ts hEq
    rcases hshape e he with ⟨rows, rfl⟩ | ⟨a, b, c, d, f, g, rfl⟩ | ⟨row, rfl⟩ <;>
      exact WriteEffect.noConfusion hEq
  · intro vps
    exact congrArg
      (fun f => List.flatMap
        (MTARealtimeParser.fix_trip_updates stop_exists message.trip_updates) f)
      (funext fun u => process_trip_update_timestamp_congr rfl)

/-- Vehicle position for the C9 witness. -/
def c9Vp : Gtfs.VehiclePosition :=
  { trip := { trip_id := "X", route_id := some "1", start_date := 737971 },
    current_stop_sequence := some 3, stop_id := none,
    current_status := .IN_TRANSIT_TO, timestamp := some 999 }

/-- Concrete message for the C9 witness: one trip update, one vehicle
position. -/
def c9Msg : Gtfs.FeedMessage :=
  { system := .NYC_MTA, feed_id := "1", timestamp := 1000,
    trip_replacements := [],
    trip_updates :=
      [ { trip := { trip_id := "X", route_id := some "1", start_date := 737971 },
          stop_time_updates :=
            [ { stop_id := "101S", arrival := some 1050, departure := none } ],
          timestamp := some 999 } ],
    vehicle_positions := [c9Vp] }

/-- Witness for C9 at a concrete message: the vehicle position survives on
the reconciled message, and no write of the run is a vehicle-position
upsert. -/
theorem vehicle_positions_never_persisted_witness :
    (MTARealtimeProcessor.process_row (fun _ => none) c2StopExists
        (fun _ => []) 2000 c9Msg).1.vehicle_positions = [c9Vp] ∧
    ∀ e ∈ (MTARealtimeProcessor.process_row (fun _ => none) c2StopExists
        (fun _ => []) 2000 c9Msg).2,
      ∀ s t st ts,
        e ≠ MTARealtimeProcessor.WriteEffect.vehicle_position_upsert
          s t st ts :=
  ⟨(vehicle_positions_never_persisted (fun _ => none) c2StopExists
      (fun _ => []) 2000 c9Msg).1,
   (vehicle_positions_never_persisted (fun _ => none) c2StopExists
      (fun _ => []) 2000 c9Msg).2.2.1⟩
